import Mathlib

/-!
Verification of the dialect-translation layer of `django-pyodbc`
(`django_pyodbc/compiler.py` and `django_pyodbc/base.py`).

The SQL-rewriting code manipulates Python byte/unicode strings with
`str.replace`, `%`-formatting and a few fixed regular expressions.  We embed
statements as Lean `String`s (lists of characters) and translate each source
function into an executable Lean definition: the GROUP BY parameter rewriter
of `SQLCompiler.as_sql`, the insert fix-up `SQLInsertCompiler._fix_insert`
(with its `_re_values_sub` substitution and the `_re_data_type_terminator`
split), and the cursor adapter's `format_sql` / `format_params` /
`execute` / `executemany`.
-/

set_option maxRecDepth 40000

namespace DjangoPyodbc

/-- Python `\s` whitespace class used by the embedded regular expressions. -/
def isWsChar (c : Char) : Bool :=
  c = ' ' || c = '\t' || c = '\n' || c = '\r' || c = '\x0b' || c = '\x0c'

/-- ASCII lower-casing, the case folding performed by `re.IGNORECASE`. -/
def lcChar (c : Char) : Char :=
  if 'A' ≤ c && c ≤ 'Z' then Char.ofNat (c.toNat + 32) else c

/-- `ciStarts pat cs` holds when `pat` (given lower-case) is a
case-insensitive prefix of `cs`. -/
def ciStarts : List Char → List Char → Bool
  | [], _ => true
  | _ :: _, [] => false
  | p :: ps, c :: cs => (lcChar c = p) && ciStarts ps cs

/-- Length of the maximal whitespace run at the front of a string, i.e. what
a greedy `\s*` consumes. -/
def wsRun : List Char → Nat
  | [] => 0
  | c :: cs => if isWsChar c then wsRun cs + 1 else 0

/-- Number of positions at which `pat` occurs in a character list. -/
def countOcc (pat : List Char) : List Char → Nat
  | [] => 0
  | c :: cs => (if pat.isPrefixOf (c :: cs) then 1 else 0) + countOcc pat cs

/-- Substring test (used to model Python's `in` operator on strings). -/
def containsSub (s pat : String) : Bool :=
  decide (0 < countOcc pat.data s.data)

/-- Python `str.replace(pat, repl, 1)`: replace the leftmost occurrence. -/
def replaceFirstLC (pat repl : List Char) : List Char → List Char
  | [] => []
  | c :: cs =>
    if pat ≠ [] ∧ pat.isPrefixOf (c :: cs) then
      repl ++ cs.drop (pat.length - 1)
    else
      c :: replaceFirstLC pat repl cs

/-- Python `str.replace(pat, repl)`: replace every occurrence, scanning left
to right without overlap.  The first argument is fuel, always called with at
least the length of the string, so that one unit is spent per character
position examined. -/
def replaceAllGo (pat repl : List Char) : Nat → List Char → List Char
  | _, [] => []
  | 0, s => s
  | fuel + 1, c :: cs =>
    if pat ≠ [] ∧ pat.isPrefixOf (c :: cs) then
      repl ++ replaceAllGo pat repl fuel (cs.drop (pat.length - 1))
    else
      c :: replaceAllGo pat repl fuel cs

/-- Python `str.replace(pat, repl)` on character lists. -/
def replaceAllLC (pat repl s : List Char) : List Char :=
  replaceAllGo pat repl s.length s

/-- String-level wrapper for `replaceFirstLC`. -/
def replaceFirst (s pat repl : String) : String :=
  ⟨replaceFirstLC pat.data repl.data s.data⟩

/-- String-level wrapper for `replaceAllLC`. -/
def replaceAll (s pat repl : String) : String :=
  ⟨replaceAllLC pat.data repl.data s.data⟩

/-- Decimal rendering of a natural number, the model of Python's `'%d'`
conversion used to mint the synthetic parameter names `p0`, `p1`, … -/
def natRepr (n : Nat) : String :=
  if n = 0 then "0"
  else ⟨((Nat.digits 10 n).reverse.map (fun d => Char.ofNat (d + 48)))⟩

/-- Left inverse of `natRepr`, reading the decimal digits back. -/
def natParse (s : String) : Nat :=
  Nat.ofDigits 10 (s.data.reverse.map (fun c => c.toNat - 48))

theorem char_ofNat_digit_toNat (d : Nat) (hd : d < 10) :
    (Char.ofNat (d + 48)).toNat = d + 48 := by
  interval_cases d <;> decide

theorem natParse_natRepr (n : Nat) : natParse (natRepr n) = n := by
  by_cases h : n = 0
  · subst h; decide
  · unfold natRepr natParse
    simp only [h, if_false]
    rw [← List.map_reverse, List.reverse_reverse, List.map_map]
    have hmap : (Nat.digits 10 n).map ((fun c => c.toNat - 48) ∘ (fun d => Char.ofNat (d + 48)))
        = (Nat.digits 10 n).map id := by
      apply List.map_congr_left
      intro d hdmem
      have hd10 : d < 10 := Nat.digits_lt_base (by omega) hdmem
      simp only [Function.comp_apply, id_eq]
      rw [char_ofNat_digit_toNat d hd10]
      omega
    rw [hmap, List.map_id, Nat.ofDigits_digits]

theorem natRepr_injective : Function.Injective natRepr :=
  Function.LeftInverse.injective natParse_natRepr

/-! ### Group-By parameter rewriter (`SQLCompiler.as_sql`, compiler.py 20–78) -/

/-- Synthetic parameter name `'p%d' % (i,)` (compiler.py line 46). -/
def pName (i : Nat) : String := "p" ++ natRepr i

/-- `param_names = map(lambda (i, p): 'p%d' % (i,), enumerate(params))`. -/
def initialNames {α : Type} (params : List α) : List String :=
  (List.range params.length).map pName

/-- `next(name for (name, value) in zip(param_names, params) if value == v)`
(compiler.py line 50); `none` when the generator is exhausted. -/
def firstName {α : Type} [DecidableEq α] : List String → List α → α → Option String
  | n :: ns, p :: ps, v => if p = v then some n else firstName ns ps v
  | _, _, _ => none

/-- `named_params[name] = value` on an `OrderedDict`: replace the value at an
existing key, keeping its position, or append a fresh binding at the end. -/
def odInsert {α : Type} [DecidableEq α] (m : List (String × α)) (k : String) (v : α) :
    List (String × α) :=
  if m.any (fun kv => decide (kv.1 = k)) then
    m.map (fun kv => if kv.1 = k then (k, v) else kv)
  else m ++ [(k, v)]

/-- The rewriting loop of `SQLCompiler.as_sql` (compiler.py lines 48–53):
`param_names[i]` is overwritten with the first name zipped to an equal value,
and the binding is recorded in the ordered dictionary `named_params`. -/
def gbLoop {α : Type} [DecidableEq α] (params : List α) :
    Nat → List String → List (String × α) → List String × List (String × α)
  | i, names, dict =>
    if h : i < params.length then
      let v := params.get ⟨i, h⟩
      let name := (firstName names params v).getD ""
      gbLoop params (i + 1) (names.set i name) (odInsert dict name v)
    else (names, dict)
termination_by i => params.length - i
decreasing_by omega

/-- The final `param_names` list after the loop. -/
def gbNames {α : Type} [DecidableEq α] (params : List α) : List String :=
  (gbLoop params 0 (initialNames params) []).1

/-- The final `named_params` ordered dictionary after the loop. -/
def gbDict {α : Type} [DecidableEq α] (params : List α) : List (String × α) :=
  (gbLoop params 0 (initialNames params) []).2

/-- The generated CTE header (compiler.py lines 63–66). -/
def withSql (tmpName : String) (keys : List String) : String :=
  "WITH " ++ tmpName ++ " AS (SELECT " ++
    String.intercalate ", " (keys.map (fun n => "%s AS " ++ n)) ++ ")"

/-- The replacement loop of compiler.py lines 69–70: each `%s`, left to
right, becomes `tmp_name + "." + named_param`. -/
def substPlaceholders (tmpName : String) : List String → String → String
  | [], sql => sql
  | n :: ns, sql => substPlaceholders tmpName ns (replaceFirst sql "%s" (tmpName ++ "." ++ n))

/-- Scan the rest of the current line for a `%s` placeholder (`.` in the
pattern does not match a newline). -/
def lineHasPlaceholder : List Char → Bool
  | '%' :: 's' :: _ => true
  | '\n' :: _ => false
  | _ :: rest => lineHasPlaceholder rest
  | [] => false

/-- `SQLCompiler._re_advanced_group_by.search(sql) is not None`: the pattern
`GROUP BY(.*%s.*)((ORDER BY)|(LIMIT))?` matches somewhere, i.e. some
occurrence of `GROUP BY` is followed on the same line by `%s` (the trailing
group is optional, so it does not constrain the match). -/
def advancedGroupBy : List Char → Bool
  | [] => false
  | c :: cs =>
    ("GROUP BY".data.isPrefixOf (c :: cs) && lineHasPlaceholder ((c :: cs).drop 8))
      || advancedGroupBy cs

namespace SQLCompiler

/-- The GROUP BY rewriting stage of `SQLCompiler.as_sql` (compiler.py lines
26–78), applied to the statement produced by the base compiler.  The random
temporary relation name generated on line 60 is passed in as `tmpName`
(already wrapped in the surrounding double quotes). -/
def as_sql (tmpName : String) (sql : String) (params : List String) :
    String × List String :=
  if advancedGroupBy sql.data then
    let names := gbNames params
    let namedParams := gbDict params
    let withPart := withSql tmpName (namedParams.map Prod.fst)
    let sql1 := substPlaceholders tmpName names sql
    let sql2 := withPart ++ " " ++ replaceAll sql1 "FROM " ("FROM " ++ tmpName ++ ", ")
    (sql2, namedParams.map Prod.snd)
  else (sql, params)

end SQLCompiler

/-- Index of the first occurrence of a value in a list (reference function
for the first-occurrence semantics of the name fix-up). -/
def firstIdx {α : Type} [DecidableEq α] : List α → α → Nat
  | [], _ => 0
  | x :: xs, v => if x = v then 0 else firstIdx xs v + 1

/-- First-occurrence deduplication: the distinct values of a list in order of
first appearance (reference function for the rewritten parameter list). -/
def dedupFirst {α : Type} [DecidableEq α] : List α → List α
  | [] => []
  | x :: xs => x :: dedupFirst (xs.filter (fun y => decide (y ≠ x)))
termination_by l => l.length
decreasing_by
  simp only [List.length_cons]
  exact Nat.lt_succ_of_le (List.length_filter_le _ _)

/-! ### First-occurrence lemmas -/

theorem firstIdx_getq {α : Type} [DecidableEq α] {l : List α} {v : α} (h : v ∈ l) :
    l[firstIdx l v]? = some v := by
  induction l with
  | nil => cases h
  | cons x xs ih =>
    by_cases hx : x = v
    · simp [firstIdx, hx]
    · have hv : v ∈ xs := by
        rcases List.mem_cons.mp h with h1 | h2
        · exact absurd h1.symm hx
        · exact h2
      simp [firstIdx, hx, List.getElem?_cons_succ, ih hv]

theorem firstIdx_le {α : Type} [DecidableEq α] {l : List α} {i : Nat} {v : α}
    (h : l[i]? = some v) : firstIdx l v ≤ i := by
  induction l generalizing i with
  | nil => simp at h
  | cons x xs ih =>
    by_cases hx : x = v
    · simp [firstIdx, hx]
    · cases i with
      | zero =>
        rw [List.getElem?_cons_zero] at h
        exact absurd (Option.some.inj h) hx
      | succ j =>
        rw [List.getElem?_cons_succ] at h
        simpa [firstIdx, hx] using Nat.succ_le_succ (ih h)

theorem firstIdx_lt_of_mem_take {α : Type} [DecidableEq α] {l : List α} {i : Nat} {v : α}
    (h : v ∈ l.take i) : firstIdx l v < i := by
  obtain ⟨j, hj, hval⟩ := List.getElem_of_mem h
  have hji : j < i := by
    have := hj
    rw [List.length_take] at this
    omega
  have hget : l[j]? = some v := by
    have h1 : (l.take i)[j]? = some v := by
      rw [List.getElem?_eq_getElem hj]
      exact congrArg some hval
    rwa [List.getElem?_take, if_pos hji] at h1
  exact Nat.lt_of_le_of_lt (firstIdx_le hget) hji

theorem firstIdx_eq_of_not_mem_take {α : Type} [DecidableEq α] {l : List α} {i : Nat} {v : α}
    (hget : l[i]? = some v) (hnot : v ∉ l.take i) : firstIdx l v = i := by
  have hle : firstIdx l v ≤ i := firstIdx_le hget
  rcases Nat.lt_or_eq_of_le hle with hlt | heq
  · exfalso
    apply hnot
    have hmem : v ∈ l := List.getElem?_mem hget
    have h1 : (l.take i)[firstIdx l v]? = some v := by
      rw [List.getElem?_take, if_pos hlt]
      exact firstIdx_getq hmem
    exact List.getElem?_mem h1
  · exact heq

theorem firstName_eq {α : Type} [DecidableEq α] :
    ∀ (names : List String) (l : List α) (v : α), v ∈ l → names.length = l.length →
      firstName names l v = names[firstIdx l v]?
  | [], [], v, hv, _ => by cases hv
  | [], _ :: _, _, _, hlen => by simp at hlen
  | _ :: _, [], v, hv, _ => by cases hv
  | n :: ns, p :: ps, v, hv, hlen => by
    by_cases hp : p = v
    · simp [firstName, firstIdx, hp]
    · have hv2 : v ∈ ps := by
        rcases List.mem_cons.mp hv with h1 | h2
        · exact absurd h1.symm hp
        · exact h2
      have hlen2 : ns.length = ps.length := by simpa using hlen
      simp only [firstName, firstIdx, hp, if_false, List.getElem?_cons_succ]
      exact firstName_eq ns ps v hv2 hlen2

/-! ### Reference (specification) forms of the loop results -/

/-- Name assignment with first-occurrence reuse: position `i` carries the
name first minted for the value at position `i`. -/
def specNames {α : Type} [DecidableEq α] (params : List α) : List String :=
  params.map (fun v => pName (firstIdx params v))

/-- The ordered dictionary after processing the first `i` positions: one
entry per distinct value seen so far, in first-occurrence order, keyed by
the reused synthetic name. -/
def specDictTake {α : Type} [DecidableEq α] (params : List α) (i : Nat) :
    List (String × α) :=
  (dedupFirst (params.take i)).map (fun v => (pName (firstIdx params v), v))

theorem pName_injective : Function.Injective pName := by
  intro a b h
  have hdata : ("p" ++ natRepr a).data = ("p" ++ natRepr b).data :=
    congrArg String.data h
  rw [String.data_append, String.data_append] at hdata
  have hd2 : (natRepr a).data = (natRepr b).data := by
    simpa using hdata
  exact natRepr_injective (String.ext hd2)

theorem mem_dedupFirst {α : Type} [DecidableEq α] {l : List α} {v : α} :
    v ∈ dedupFirst l ↔ v ∈ l := by
  induction l using dedupFirst.induct with
  | case1 => simp [dedupFirst]
  | case2 x xs ih =>
    rw [dedupFirst]
    constructor
    · intro h
      rcases List.mem_cons.mp h with h1 | h2
      · exact h1 ▸ List.mem_cons_self x xs
      · have := ih.mp h2
        exact List.mem_cons_of_mem x (List.mem_filter.mp this).1
    · intro h
      rcases List.mem_cons.mp h with h1 | h2
      · exact h1 ▸ List.mem_cons_self _ _
      · by_cases hvx : v = x
        · exact hvx ▸ List.mem_cons_self _ _
        · exact List.mem_cons_of_mem x (ih.mpr (List.mem_filter.mpr ⟨h2, by simp [hvx]⟩))

theorem dedupFirst_append_single {α : Type} [DecidableEq α] (l : List α) (x : α) :
    dedupFirst (l ++ [x]) = dedupFirst l ++ (if x ∈ l then [] else [x]) := by
  induction l using dedupFirst.induct with
  | case1 => simp [dedupFirst]
  | case2 y ys ih =>
    rw [List.cons_append, dedupFirst, List.filter_append]
    by_cases hxy : x = y
    · have hfx : List.filter (fun z => decide (z ≠ y)) [x] = [] := by
        simp [hxy]
      rw [hfx, List.append_nil]
      simp [hxy, dedupFirst]
    · have hfx : List.filter (fun z => decide (z ≠ y)) [x] = [x] := by
        simp [hxy]
      rw [hfx, ih]
      have hmem : x ∈ List.filter (fun z => decide (z ≠ y)) ys ↔ x ∈ y :: ys := by
        rw [List.mem_filter]
        simp [hxy]
      by_cases hx : x ∈ y :: ys
      · rw [if_pos (hmem.mpr hx), if_pos hx]
        simp [dedupFirst]
      · rw [if_neg (fun hc => hx (hmem.mp hc)), if_neg hx]
        simp [dedupFirst]

theorem dedupFirst_length_le {α : Type} [DecidableEq α] (l : List α) :
    (dedupFirst l).length ≤ l.length := by
  induction l using dedupFirst.induct with
  | case1 => simp [dedupFirst]
  | case2 x xs ih =>
    rw [dedupFirst]
    simp only [List.length_cons]
    exact Nat.succ_le_succ (Nat.le_trans ih (List.length_filter_le _ _))

/-! ### The loop invariant for `gbLoop` -/

/-- The `param_names` list after the first `i` iterations of the loop:
fixed-up names below position `i`, initial names from `i` on. -/
def mixedNames {α : Type} [DecidableEq α] (params : List α) (i : Nat) : List String :=
  (specNames params).take i ++ (initialNames params).drop i

theorem length_specNames {α : Type} [DecidableEq α] (params : List α) :
    (specNames params).length = params.length := by
  simp [specNames]

theorem length_initialNames {α : Type} (params : List α) :
    (initialNames params).length = params.length := by
  simp [initialNames]

theorem initialNames_getq {α : Type} (params : List α) {i : Nat} (h : i < params.length) :
    (initialNames params)[i]? = some (pName i) := by
  simp [initialNames, List.getElem?_map, List.getElem?_range h]

theorem specNames_getq {α : Type} [DecidableEq α] {params : List α} {i : Nat} {v : α}
    (h : params[i]? = some v) :
    (specNames params)[i]? = some (pName (firstIdx params v)) := by
  simp [specNames, List.getElem?_map, h]

theorem length_mixedNames {α : Type} [DecidableEq α] (params : List α) {i : Nat}
    (h : i ≤ params.length) : (mixedNames params i).length = params.length := by
  rw [mixedNames, List.length_append, List.length_take, length_specNames,
      List.length_drop, length_initialNames]
  omega

theorem mixedNames_getq_firstIdx {α : Type} [DecidableEq α] {params : List α} {i : Nat} {v : α}
    (hi : i < params.length) (hv : params[i]? = some v) :
    (mixedNames params i)[firstIdx params v]? = some (pName (firstIdx params v)) := by
  have hvmem : v ∈ params := List.getElem?_mem hv
  have hjle : firstIdx params v ≤ i := firstIdx_le hv
  have htlen : ((specNames params).take i).length = i := by
    rw [List.length_take, length_specNames]; omega
  rcases Nat.lt_or_eq_of_le hjle with hlt | heq
  · rw [mixedNames, List.getElem?_append, htlen, if_pos hlt, List.getElem?_take, if_pos hlt]
    exact specNames_getq (firstIdx_getq hvmem)
  · rw [mixedNames, List.getElem?_append, htlen, heq, if_neg (Nat.lt_irrefl i), Nat.sub_self,
        List.getElem?_drop, Nat.add_zero]
    rw [initialNames_getq params hi]

theorem mixedNames_set {α : Type} [DecidableEq α] {params : List α} {i : Nat} {v : α}
    (hi : i < params.length) (hv : params[i]? = some v) :
    (mixedNames params i).set i (pName (firstIdx params v)) = mixedNames params (i + 1) := by
  apply List.ext_getElem?
  intro n
  have hlen_mix : (mixedNames params i).length = params.length :=
    length_mixedNames params (Nat.le_of_lt hi)
  have htlen : ((specNames params).take i).length = i := by
    rw [List.length_take, length_specNames]; omega
  have htlen1 : ((specNames params).take (i + 1)).length = i + 1 := by
    rw [List.length_take, length_specNames]; omega
  rw [List.getElem?_set]
  by_cases hn : i = n
  · subst hn
    rw [if_pos rfl, if_pos (hlen_mix ▸ hi)]
    rw [mixedNames, List.getElem?_append, htlen1, if_pos (Nat.lt_succ_self i),
        List.getElem?_take, if_pos (Nat.lt_succ_self i), specNames_getq hv]
  · rw [if_neg hn]
    rcases Nat.lt_or_ge n i with hlt | hge
    · rw [mixedNames, mixedNames, List.getElem?_append, htlen, if_pos hlt,
          List.getElem?_append, htlen1, if_pos (by omega), List.getElem?_take, if_pos hlt,
          List.getElem?_take, if_pos (by omega)]
    · have hgt : i < n := by omega
      rw [mixedNames, mixedNames, List.getElem?_append, htlen, if_neg (by omega),
          List.getElem?_append, htlen1, if_neg (by omega), List.getElem?_drop,
          List.getElem?_drop]
      congr 1
      omega

theorem specDict_step {α : Type} [DecidableEq α] {params : List α} {i : Nat} {v : α}
    (hv : params[i]? = some v) :
    odInsert (specDictTake params i) (pName (firstIdx params v)) v
      = specDictTake params (i + 1) := by
  have htake : params.take (i + 1) = params.take i ++ [v] := by
    rw [List.take_succ, hv]
    rfl
  by_cases hmem : v ∈ params.take i
  · have hkey : (pName (firstIdx params v), v) ∈ specDictTake params i := by
      rw [specDictTake]
      exact List.mem_map.mpr ⟨v, mem_dedupFirst.mpr hmem, rfl⟩
    have hany : (specDictTake params i).any
        (fun kv => decide (kv.1 = pName (firstIdx params v))) = true :=
      List.any_eq_true.mpr ⟨_, hkey, by simp⟩
    rw [odInsert, if_pos hany]
    rw [specDictTake, specDictTake, htake, dedupFirst_append_single, if_pos hmem,
        List.append_nil, List.map_map]
    apply List.map_congr_left
    intro w hw
    simp only [Function.comp_apply]
    by_cases hk : pName (firstIdx params w) = pName (firstIdx params v)
    · have hfi : firstIdx params w = firstIdx params v := pName_injective hk
      have hwp : w ∈ params := List.mem_of_mem_take (mem_dedupFirst.mp hw)
      have hvp : v ∈ params := List.mem_of_mem_take hmem
      have hsome : some w = some v := by
        rw [← firstIdx_getq hwp, ← firstIdx_getq hvp, hfi]
      have hwv : w = v := Option.some.inj hsome
      simp [hk, hwv]
    · simp [hk]
  · have hj : firstIdx params v = i := by
      apply firstIdx_eq_of_not_mem_take hv hmem
    have hany : ¬ ((specDictTake params i).any
        (fun kv => decide (kv.1 = pName (firstIdx params v))) = true) := by
      intro hc
      obtain ⟨kv, hkv, hdec⟩ := List.any_eq_true.mp hc
      rw [specDictTake] at hkv
      obtain ⟨w, hw, hfw⟩ := List.mem_map.mp hkv
      have hwlt : firstIdx params w < i :=
        firstIdx_lt_of_mem_take (mem_dedupFirst.mp hw)
      have hkeq : pName (firstIdx params w) = pName (firstIdx params v) := by
        have : kv.1 = pName (firstIdx params v) := of_decide_eq_true hdec
        rw [← hfw] at this
        exact this
      have := pName_injective hkeq
      omega
    rw [odInsert, if_neg hany]
    rw [specDictTake, specDictTake, htake, dedupFirst_append_single, if_neg hmem,
        List.map_append, hj]
    simp [hj]

theorem gbLoop_spec {α : Type} [DecidableEq α] (params : List α) :
    ∀ d k, params.length - k = d → k ≤ params.length →
      gbLoop params k (mixedNames params k) (specDictTake params k)
        = (specNames params, specDictTake params params.length) := by
  intro d
  induction d with
  | zero =>
    intro k hd hk
    have hk2 : k = params.length := by omega
    subst hk2
    rw [gbLoop, dif_neg (Nat.lt_irrefl _)]
    have h1 : mixedNames params params.length = specNames params := by
      rw [mixedNames]
      have ht : (specNames params).take params.length = specNames params := by
        rw [← length_specNames params]
        exact List.take_length _
      have hdp : (initialNames params).drop params.length = [] := by
        rw [← length_initialNames params]
        exact List.drop_length _
      rw [ht, hdp, List.append_nil]
    rw [h1]
  | succ d ih =>
    intro k hd hk
    have hklt : k < params.length := by omega
    rw [gbLoop, dif_pos hklt]
    have hv : params[k]? = some (params.get ⟨k, hklt⟩) := by
      rw [List.getElem?_eq_getElem hklt]
      rfl
    have hmem : params.get ⟨k, hklt⟩ ∈ params := List.get_mem params k hklt
    have hlen : (mixedNames params k).length = params.length :=
      length_mixedNames params (Nat.le_of_lt hklt)
    have hname : (firstName (mixedNames params k) params (params.get ⟨k, hklt⟩)).getD ""
        = pName (firstIdx params (params.get ⟨k, hklt⟩)) := by
      rw [firstName_eq _ _ _ hmem hlen, mixedNames_getq_firstIdx hklt hv]
      rfl
    show gbLoop params (k + 1)
        ((mixedNames params k).set k
          ((firstName (mixedNames params k) params (params.get ⟨k, hklt⟩)).getD ""))
        (odInsert (specDictTake params k)
          ((firstName (mixedNames params k) params (params.get ⟨k, hklt⟩)).getD "")
          (params.get ⟨k, hklt⟩))
      = (specNames params, specDictTake params params.length)
    rw [hname, mixedNames_set hklt hv, specDict_step hv]
    exact ih (k + 1) (by omega) (by omega)

theorem gbNames_eq {α : Type} [DecidableEq α] (params : List α) :
    gbNames params = specNames params := by
  have h0 : mixedNames params 0 = initialNames params := by
    simp [mixedNames]
  have hd0 : specDictTake params 0 = [] := by
    simp [specDictTake, dedupFirst]
  have h := gbLoop_spec params params.length 0 (by omega) (Nat.zero_le _)
  rw [h0, hd0] at h
  rw [gbNames, h]

theorem gbDict_eq {α : Type} [DecidableEq α] (params : List α) :
    gbDict params = (dedupFirst params).map (fun v => (pName (firstIdx params v), v)) := by
  have h0 : mixedNames params 0 = initialNames params := by
    simp [mixedNames]
  have hd0 : specDictTake params 0 = [] := by
    simp [specDictTake, dedupFirst]
  have h := gbLoop_spec params params.length 0 (by omega) (Nat.zero_le _)
  rw [h0, hd0] at h
  rw [gbDict, h]
  rw [specDictTake, List.take_length]

/-! ### Claim theorems for the Group-By rewriter -/

theorem as_sql_snd (tmpName sql : String) (params : List String)
    (hmatch : advancedGroupBy sql.data = true) :
    (SQLCompiler.as_sql tmpName sql params).2 = (gbDict params).map Prod.snd := by
  simp only [SQLCompiler.as_sql, hmatch, if_true]

theorem as_sql_fst (tmpName sql : String) (params : List String)
    (hmatch : advancedGroupBy sql.data = true) :
    (SQLCompiler.as_sql tmpName sql params).1
      = withSql tmpName ((gbDict params).map Prod.fst) ++ " "
          ++ replaceAll (substPlaceholders tmpName (gbNames params) sql) "FROM "
              ("FROM " ++ tmpName ++ ", ") := by
  simp only [SQLCompiler.as_sql, hmatch, if_true]

/-- C1: for a statement whose GROUP BY clause contains placeholders, the
rewriter assigns synthetic names `p0..pN-1` left to right reusing, for every
later occurrence of an equal value, the name of the value's first occurrence
(`gbNames params = params.map (fun v => pName (firstIdx params v))`); the
rewritten parameter list is exactly the distinct values in first-occurrence
order (`dedupFirst params`), hence of length at most the original; and on
the documented example `['2016-05-04', '2016-05-04']` the rewritten list has
length 1 and both placeholder sites receive the same synthetic reference
`"TMP_tmp123".p0`. -/
theorem groupby_rewrite_dedups (tmpName sql : String) (params : List String)
    (hmatch : advancedGroupBy sql.data = true) :
    gbNames params = params.map (fun v => pName (firstIdx params v)) ∧
    (SQLCompiler.as_sql tmpName sql params).2 = dedupFirst params ∧
    (SQLCompiler.as_sql tmpName sql params).2.length ≤ params.length ∧
    (gbDict params).map Prod.fst
      = (dedupFirst params).map (fun v => pName (firstIdx params v)) ∧
    SQLCompiler.as_sql "\"TMP_tmp123\""
        "SELECT (first_seen >= %s), COUNT(*) FROM \"TABLEAU_ALL\" GROUP BY (first_seen >= %s)"
        ["2016-05-04", "2016-05-04"]
      = ("WITH \"TMP_tmp123\" AS (SELECT %s AS p0) SELECT (first_seen >= \"TMP_tmp123\".p0), COUNT(*) FROM \"TMP_tmp123\", \"TABLEAU_ALL\" GROUP BY (first_seen >= \"TMP_tmp123\".p0)",
         ["2016-05-04"]) := by
  have hsnd := as_sql_snd tmpName sql params hmatch
  have hdoc : advancedGroupBy
      ("SELECT (first_seen >= %s), COUNT(*) FROM \"TABLEAU_ALL\" GROUP BY (first_seen >= %s)").data
      = true := by decide
  have hded : dedupFirst (["2016-05-04", "2016-05-04"] : List String) = ["2016-05-04"] := by
    rw [dedupFirst, show List.filter (fun y => decide (y ≠ "2016-05-04")) ["2016-05-04"] = []
        from by decide, dedupFirst]
  refine ⟨gbNames_eq params, ?_, ?_, ?_, ?_⟩
  · rw [hsnd, gbDict_eq, List.map_map]
    have hcomp : (Prod.snd ∘ fun v : String => (pName (firstIdx params v), v)) = id := rfl
    rw [hcomp, List.map_id]
  · rw [hsnd, gbDict_eq, List.map_map]
    simpa using dedupFirst_length_le params
  · rw [gbDict_eq, List.map_map]
    rfl
  · have h1 := as_sql_fst "\"TMP_tmp123\""
      "SELECT (first_seen >= %s), COUNT(*) FROM \"TABLEAU_ALL\" GROUP BY (first_seen >= %s)"
      ["2016-05-04", "2016-05-04"] hdoc
    have h2 := as_sql_snd "\"TMP_tmp123\""
      "SELECT (first_seen >= %s), COUNT(*) FROM \"TABLEAU_ALL\" GROUP BY (first_seen >= %s)"
      ["2016-05-04", "2016-05-04"] hdoc
    rw [gbNames_eq, gbDict_eq, hded] at h1
    rw [gbDict_eq, hded] at h2
    refine Prod.ext ?_ ?_
    · rw [h1]
      decide
    · rw [h2]
      decide

/-- Witness for C1 at the documented example. -/
theorem groupby_rewrite_dedups_witness :
    advancedGroupBy
        ("SELECT (first_seen >= %s), COUNT(*) FROM \"TABLEAU_ALL\" GROUP BY (first_seen >= %s)").data
      = true ∧
    (gbNames ["2016-05-04", "2016-05-04"]
        = (["2016-05-04", "2016-05-04"] : List String).map
            (fun v => pName (firstIdx ["2016-05-04", "2016-05-04"] v)) ∧
     (SQLCompiler.as_sql "\"TMP_tmp123\""
        "SELECT (first_seen >= %s), COUNT(*) FROM \"TABLEAU_ALL\" GROUP BY (first_seen >= %s)"
        ["2016-05-04", "2016-05-04"]).2 = dedupFirst ["2016-05-04", "2016-05-04"] ∧
     (SQLCompiler.as_sql "\"TMP_tmp123\""
        "SELECT (first_seen >= %s), COUNT(*) FROM \"TABLEAU_ALL\" GROUP BY (first_seen >= %s)"
        ["2016-05-04", "2016-05-04"]).2.length ≤ (["2016-05-04", "2016-05-04"] : List String).length ∧
     (gbDict ["2016-05-04", "2016-05-04"]).map Prod.fst
        = (dedupFirst ["2016-05-04", "2016-05-04"]).map
            (fun v => pName (firstIdx ["2016-05-04", "2016-05-04"] v)) ∧
     SQLCompiler.as_sql "\"TMP_tmp123\""
        "SELECT (first_seen >= %s), COUNT(*) FROM \"TABLEAU_ALL\" GROUP BY (first_seen >= %s)"
        ["2016-05-04", "2016-05-04"]
      = ("WITH \"TMP_tmp123\" AS (SELECT %s AS p0) SELECT (first_seen >= \"TMP_tmp123\".p0), COUNT(*) FROM \"TMP_tmp123\", \"TABLEAU_ALL\" GROUP BY (first_seen >= \"TMP_tmp123\".p0)",
         ["2016-05-04"])) :=
  ⟨by decide,
   groupby_rewrite_dedups "\"TMP_tmp123\""
     "SELECT (first_seen >= %s), COUNT(*) FROM \"TABLEAU_ALL\" GROUP BY (first_seen >= %s)"
     ["2016-05-04", "2016-05-04"] (by decide)⟩

/-- C2 counterexample: the splice does NOT leave other `FROM ` occurrences
unchanged.  On a statement with a second `FROM ` inside a subquery, the
rewriter (which uses an unbounded `str.replace`) also rewrites the inner
occurrence: the substring `FROM "U"` is present in the input but absent from
the output, which instead contains `FROM "TMP_x1y2", "U"`. -/
theorem groupby_from_splice_counterexample :
    containsSub "SELECT a FROM \"T\" WHERE b IN (SELECT c FROM \"U\") GROUP BY %s" "FROM \"U\"" = true ∧
    advancedGroupBy ("SELECT a FROM \"T\" WHERE b IN (SELECT c FROM \"U\") GROUP BY %s").data = true ∧
    containsSub (SQLCompiler.as_sql "\"TMP_x1y2\""
        "SELECT a FROM \"T\" WHERE b IN (SELECT c FROM \"U\") GROUP BY %s" ["v"]).1
      "FROM \"U\"" = false ∧
    containsSub (SQLCompiler.as_sql "\"TMP_x1y2\""
        "SELECT a FROM \"T\" WHERE b IN (SELECT c FROM \"U\") GROUP BY %s" ["v"]).1
      "FROM \"TMP_x1y2\", \"U\"" = true := by
  have hm : advancedGroupBy
      ("SELECT a FROM \"T\" WHERE b IN (SELECT c FROM \"U\") GROUP BY %s").data = true := by
    decide
  have hded : dedupFirst (["v"] : List String) = ["v"] := by
    rw [dedupFirst, List.filter_nil, dedupFirst]
  have h1 := as_sql_fst "\"TMP_x1y2\""
    "SELECT a FROM \"T\" WHERE b IN (SELECT c FROM \"U\") GROUP BY %s" ["v"] hm
  rw [gbNames_eq, gbDict_eq, hded] at h1
  rw [h1]
  refine ⟨by decide, hm, by decide, by decide⟩

/-- C2 (amended): when the Group-By rewrite fires, the rewritten statement
is the CTE text, a space, and the original (placeholder-substituted)
statement in which EVERY occurrence of `FROM ` — not only the first — has
the temporary relation spliced in after it; on the two-`FROM` example both
occurrences are rewritten. -/
theorem groupby_from_splice_all (tmpName sql : String) (params : List String)
    (hmatch : advancedGroupBy sql.data = true) :
    (SQLCompiler.as_sql tmpName sql params).1
      = withSql tmpName ((gbDict params).map Prod.fst) ++ " "
          ++ replaceAll (substPlaceholders tmpName (gbNames params) sql) "FROM "
              ("FROM " ++ tmpName ++ ", ") ∧
    (SQLCompiler.as_sql "\"TMP_x1y2\""
        "SELECT a FROM \"T\" WHERE b IN (SELECT c FROM \"U\") GROUP BY %s" ["v"]).1
      = "WITH \"TMP_x1y2\" AS (SELECT %s AS p0) SELECT a FROM \"TMP_x1y2\", \"T\" WHERE b IN (SELECT c FROM \"TMP_x1y2\", \"U\") GROUP BY \"TMP_x1y2\".p0" := by
  refine ⟨as_sql_fst tmpName sql params hmatch, ?_⟩
  have hm : advancedGroupBy
      ("SELECT a FROM \"T\" WHERE b IN (SELECT c FROM \"U\") GROUP BY %s").data = true := by
    decide
  have hded : dedupFirst (["v"] : List String) = ["v"] := by
    rw [dedupFirst, List.filter_nil, dedupFirst]
  have h1 := as_sql_fst "\"TMP_x1y2\""
    "SELECT a FROM \"T\" WHERE b IN (SELECT c FROM \"U\") GROUP BY %s" ["v"] hm
  rw [gbNames_eq, gbDict_eq, hded] at h1
  rw [h1]
  decide

/-! ### Insert rewriter (`SQLInsertCompiler`, compiler.py 81–155) -/

/-- Word characters for the `\b` boundary of `_re_data_type_terminator`. -/
def wordChar (c : Char) : Bool := c.isAlpha || c.isDigit || c = '_'

/-- The alternatives of `_re_data_type_terminator` (lower-case). -/
def dataTypeKeywords : List (List Char) :=
  ["filestream", "collate", "sparse", "not", "null", "constraint", "default",
   "identity", "rowguidcol", "primary", "unique", "clustered", "nonclustered",
   "with", "on", "foreign", "references", "check"].map String.data

/-- One attempted match of `\s*\b(?:filestream|collate|...)` at the current
position; `prevWord` says whether the preceding character is a word
character, deciding the `\b` boundary when `\s*` consumes nothing. -/
def typeTermMatch (prevWord : Bool) (cs : List Char) : Bool :=
  let n := wsRun cs
  let r := cs.drop n
  (decide (0 < n) || !prevWord) && dataTypeKeywords.any (fun kw => ciStarts kw r)

/-- `_re_data_type_terminator.split(s)[0]` (compiler.py line 140): the
prefix of the declared column type before the leftmost terminator match. -/
def dataTypeSplitAux : Bool → List Char → List Char
  | _, [] => []
  | prevWord, c :: cs =>
    if typeTermMatch prevWord (c :: cs) then []
    else c :: dataTypeSplitAux (wordChar c) cs

/-- String-level wrapper for `dataTypeSplitAux`, starting at a boundary. -/
def dataTypeSplit (s : String) : String := ⟨dataTypeSplitAux false s.data⟩

/-- The literal `values`, lower-case, for `re.IGNORECASE` matching. -/
def valuesPat : List Char := ['v', 'a', 'l', 'u', 'e', 's']

/-- The literal `default`, lower-case, for `re.IGNORECASE` matching. -/
def defaultPat : List Char := ['d', 'e', 'f', 'a', 'u', 'l', 't']

/-- Attempt to match `SQLInsertCompiler._re_values_sub`, the pattern
`(?P<prefix>\)|\])(?P<default>\s*|\s*default\s*)values(?P<suffix>\s*|\s+\()?`
(case-insensitive), at a position whose first character is `c` and whose
remaining characters are `cs`.  On success, return the source text of the
`default` and `suffix` groups and the number of characters of `cs` consumed.
Backtracking is resolved as Python does: each `\s*` is effectively maximal
because the following literal starts with a non-whitespace character, and
the optional suffix group always succeeds via its first alternative. -/
def valuesMatch (c : Char) (cs : List Char) : Option (List Char × List Char × Nat) :=
  if c = ')' || c = ']' then
    let n1 := wsRun cs
    let r1 := cs.drop n1
    if ciStarts valuesPat r1 then
      let r2 := r1.drop 6
      let n3 := wsRun r2
      some (cs.take n1, r2.take n3, n1 + 6 + n3)
    else if ciStarts defaultPat r1 then
      let r2 := r1.drop 7
      let n2 := wsRun r2
      let r3 := r2.drop n2
      if ciStarts valuesPat r3 then
        let r4 := r3.drop 6
        let n3 := wsRun r4
        some (cs.take n1 ++ r1.take 7 ++ r2.take n2, r4.take n3, n1 + 7 + n2 + 6 + n3)
      else none
    else none
  else none

/-- `SQLInsertCompiler._values_repl` with the group references substituted:
`\g<prefix> OUTPUT INSERTED.{col} INTO @sqlserver_ado_return_id\g<default>VALUES\g<suffix>`. -/
def valuesRepl (col : String) (c : Char) (dflt sfx : List Char) : List Char :=
  c :: (" OUTPUT INSERTED.".data ++ col.data ++ " INTO @sqlserver_ado_return_id".data
        ++ dflt ++ "VALUES".data ++ sfx)

/-- `_re_values_sub.sub(output, sql)` (compiler.py line 153): replace every
non-overlapping match, scanning left to right.  Fuel-based, one unit per
position examined. -/
def valuesSubGo (col : String) : Nat → List Char → List Char
  | _, [] => []
  | 0, s => s
  | fuel + 1, c :: cs =>
    match valuesMatch c cs with
    | some (dflt, sfx, n) => valuesRepl col c dflt sfx ++ valuesSubGo col fuel (cs.drop n)
    | none => c :: valuesSubGo col fuel cs

/-- String-level wrapper for `valuesSubGo`. -/
def valuesSub (col sql : String) : String := ⟨valuesSubGo col sql.data.length sql.data⟩

/-- The metadata consumed by `_fix_insert`: the auto-field flag and column
list of the query, and the already-quoted identifiers produced by the
external `quote_name` collaborator (`quoted_table`, `pk_col`), together
with the primary key's declared type string `pk_db_type`. -/
structure InsertMeta where
  has_auto_field : Bool
  fields : List String
  auto_field : String
  quoted_table : String
  pk_col : String
  pk_db_type : String

namespace SQLInsertCompiler

/-- `SQLInsertCompiler._fix_insert` (compiler.py lines 100–155): the
DEFAULT VALUES rewrite, identity-insert bracketing, and return-id capture. -/
def fix_insert (return_id can_return_id : Bool) (meta : InsertMeta)
    (sql : String) (params : List String) : String × List String :=
  let step1 :=
    if meta.has_auto_field then
      let auto_in_fields := meta.fields.contains meta.auto_field
      if meta.fields.isEmpty
          || (auto_in_fields && meta.fields.length == 1 && params.isEmpty) then
        ("INSERT INTO " ++ meta.quoted_table ++ " DEFAULT VALUES", ([] : List String))
      else if auto_in_fields then
        ("SET IDENTITY_INSERT " ++ meta.quoted_table ++ " ON;" ++ sql
           ++ ";SET IDENTITY_INSERT " ++ meta.quoted_table ++ " OFF", params)
      else (sql, params)
    else (sql, params)
  if return_id && can_return_id then
    let col := meta.pk_col
    let pk_type := dataTypeSplit meta.pk_db_type
    let sql2 := "SET NOCOUNT ON;DECLARE @sqlserver_ado_return_id table (" ++ col ++ " "
        ++ pk_type ++ ");" ++ step1.1 ++ ";SELECT * FROM @sqlserver_ado_return_id"
    (valuesSub col sql2, step1.2)
  else step1

end SQLInsertCompiler

/-! ### Claim theorems for the DEFAULT VALUES and identity-insert stages -/

/-- C4 counterexample: with return-id requested and supported, an INSERT
with an empty column list into a table with a server-generated key is NOT
rewritten to exactly `INSERT INTO <table> DEFAULT VALUES` — the return-id
capture wraps and modifies the statement further.  The parameter list is
still empty. -/
theorem insert_default_values_counterexample :
    (SQLInsertCompiler.fix_insert true true
        ⟨true, [], "id", "[t]", "[id]", "int"⟩ "INSERT INTO [t] ([a]) VALUES (%s)" []).1
      ≠ "INSERT INTO [t] DEFAULT VALUES" ∧
    (SQLInsertCompiler.fix_insert true true
        ⟨true, [], "id", "[t]", "[id]", "int"⟩ "INSERT INTO [t] ([a]) VALUES (%s)" [])
      = ("SET NOCOUNT ON;DECLARE @sqlserver_ado_return_id table ([id] int);INSERT INTO [t] OUTPUT INSERTED.[id] INTO @sqlserver_ado_return_id DEFAULT VALUES;SELECT * FROM @sqlserver_ado_return_id",
         []) := by
  refine ⟨by decide, by decide⟩

/-- C4 (amended): for an INSERT into a table with a server-generated key
whose column list is empty, or whose only column is that key with no
parameters bound, and for which return-id capture is not active, the
rewriter produces exactly `INSERT INTO <table> DEFAULT VALUES` with an empty
parameter list. -/
theorem insert_default_values (return_id can_return_id : Bool) (meta : InsertMeta)
    (sql : String) (params : List String)
    (hauto : meta.has_auto_field = true)
    (hcase : meta.fields = [] ∨ (meta.fields = [meta.auto_field] ∧ params = []))
    (hret : return_id = false ∨ can_return_id = false) :
    SQLInsertCompiler.fix_insert return_id can_return_id meta sql params
      = ("INSERT INTO " ++ meta.quoted_table ++ " DEFAULT VALUES", []) := by
  have hb : (return_id && can_return_id) = false := by
    rcases hret with h | h <;> simp [h]
  rcases hcase with h | ⟨h1, h2⟩
  · simp [SQLInsertCompiler.fix_insert, hauto, hb, h]
  · simp [SQLInsertCompiler.fix_insert, hauto, hb, h1, h2]

/-- Witness for the amended C4. -/
theorem insert_default_values_witness :
    (⟨true, ["id"], "id", "[t]", "[id]", "int"⟩ : InsertMeta).has_auto_field = true ∧
    ((⟨true, ["id"], "id", "[t]", "[id]", "int"⟩ : InsertMeta).fields = []
      ∨ ((⟨true, ["id"], "id", "[t]", "[id]", "int"⟩ : InsertMeta).fields
          = [(⟨true, ["id"], "id", "[t]", "[id]", "int"⟩ : InsertMeta).auto_field]
         ∧ ([] : List String) = [])) ∧
    SQLInsertCompiler.fix_insert false true
        ⟨true, ["id"], "id", "[t]", "[id]", "int"⟩ "INSERT INTO [t] ([id]) VALUES ()" []
      = ("INSERT INTO " ++ "[t]" ++ " DEFAULT VALUES", []) :=
  ⟨rfl, Or.inr ⟨rfl, rfl⟩,
   insert_default_values false true ⟨true, ["id"], "id", "[t]", "[id]", "int"⟩
     "INSERT INTO [t] ([id]) VALUES ()" [] rfl (Or.inr ⟨rfl, rfl⟩) (Or.inl rfl)⟩

/-- C5 counterexample: with return-id requested and supported, the rewriter
does not merely bracket the original statement with identity-insert toggles:
the original statement text is additionally modified by the OUTPUT-clause
injection, so it no longer occurs contiguously in the result.  The
parameter sequence is preserved. -/
theorem insert_identity_bracket_counterexample :
    (SQLInsertCompiler.fix_insert true true
        ⟨true, ["id"], "id", "[t]", "[id]", "int"⟩ "INSERT INTO [t] ([id]) VALUES (%s)" ["5"]).1
      ≠ "SET IDENTITY_INSERT [t] ON;INSERT INTO [t] ([id]) VALUES (%s);SET IDENTITY_INSERT [t] OFF" ∧
    containsSub (SQLInsertCompiler.fix_insert true true
        ⟨true, ["id"], "id", "[t]", "[id]", "int"⟩ "INSERT INTO [t] ([id]) VALUES (%s)" ["5"]).1
      "INSERT INTO [t] ([id]) VALUES (%s)" = false ∧
    (SQLInsertCompiler.fix_insert true true
        ⟨true, ["id"], "id", "[t]", "[id]", "int"⟩ "INSERT INTO [t] ([id]) VALUES (%s)" ["5"]).2
      = ["5"] := by
  refine ⟨by decide, by decide, by decide⟩

/-- C5 (amended): for an INSERT whose column list explicitly contains the
server-generated key (outside the DEFAULT VALUES case), the rewriter wraps
the statement in `SET IDENTITY_INSERT <t> ON;`/`;SET IDENTITY_INSERT <t> OFF`
— with the original statement text kept verbatim exactly when return-id
capture is not active — and the parameter sequence is always preserved in
order and count. -/
theorem insert_identity_bracket (return_id can_return_id : Bool) (meta : InsertMeta)
    (sql : String) (params : List String)
    (hauto : meta.has_auto_field = true)
    (hin : meta.auto_field ∈ meta.fields)
    (hnd : ¬ (meta.fields.length = 1 ∧ params = [])) :
    (return_id = false ∨ can_return_id = false →
      SQLInsertCompiler.fix_insert return_id can_return_id meta sql params
        = ("SET IDENTITY_INSERT " ++ meta.quoted_table ++ " ON;" ++ sql
            ++ ";SET IDENTITY_INSERT " ++ meta.quoted_table ++ " OFF", params)) ∧
    (SQLInsertCompiler.fix_insert return_id can_return_id meta sql params).2 = params := by
  have hne : meta.fields ≠ [] := List.ne_nil_of_mem hin
  have hemp : meta.fields.isEmpty = false := List.isEmpty_eq_false.mpr hne
  have hcontains : meta.fields.contains meta.auto_field = true := by
    simp [List.contains, List.elem_iff, hin]
  have hb2 : (meta.fields.contains meta.auto_field && meta.fields.length == 1
      && params.isEmpty) = false := by
    by_cases h1 : meta.fields.length = 1
    · have h2 : params ≠ [] := fun hp => hnd ⟨h1, hp⟩
      have : params.isEmpty = false := List.isEmpty_eq_false.mpr h2
      simp [this]
    · simp [h1]
  have hneg : ¬ ((meta.auto_field ∈ meta.fields ∧ meta.fields.length = 1)
      ∧ params = []) := fun hc => hnd ⟨hc.1.2, hc.2⟩
  constructor
  · intro hret
    have hb : (return_id && can_return_id) = false := by
      rcases hret with h | h <;> simp [h]
    simp [SQLInsertCompiler.fix_insert, hauto, hemp, hb2, hcontains, hb]
    rw [if_neg hneg, if_pos hin]
  · by_cases hb : (return_id && can_return_id) = true
    · simp [SQLInsertCompiler.fix_insert, hauto, hemp, hb2, hcontains, hb]
      rw [if_neg hneg, if_pos hin]
    · have hb' : (return_id && can_return_id) = false := by
        revert hb
        cases return_id <;> cases can_return_id <;> decide
      simp [SQLInsertCompiler.fix_insert, hauto, hemp, hb2, hcontains, hb']
      rw [if_neg hneg, if_pos hin]

/-- Witness for the amended C5. -/
theorem insert_identity_bracket_witness :
    (⟨true, ["id", "a"], "id", "[t]", "[id]", "int"⟩ : InsertMeta).has_auto_field = true ∧
    "id" ∈ (["id", "a"] : List String) ∧
    ¬ ((["id", "a"] : List String).length = 1 ∧ (["5", "6"] : List String) = []) ∧
    ((false = false ∨ true = false →
      SQLInsertCompiler.fix_insert false true
          ⟨true, ["id", "a"], "id", "[t]", "[id]", "int"⟩
          "INSERT INTO [t] ([id], [a]) VALUES (%s, %s)" ["5", "6"]
        = ("SET IDENTITY_INSERT " ++ "[t]" ++ " ON;"
            ++ "INSERT INTO [t] ([id], [a]) VALUES (%s, %s)"
            ++ ";SET IDENTITY_INSERT " ++ "[t]" ++ " OFF", ["5", "6"])) ∧
     (SQLInsertCompiler.fix_insert false true
         ⟨true, ["id", "a"], "id", "[t]", "[id]", "int"⟩
         "INSERT INTO [t] ([id], [a]) VALUES (%s, %s)" ["5", "6"]).2 = ["5", "6"]) :=
  ⟨rfl, by decide, by decide,
   insert_identity_bracket false true ⟨true, ["id", "a"], "id", "[t]", "[id]", "int"⟩
     "INSERT INTO [t] ([id], [a]) VALUES (%s, %s)" ["5", "6"] rfl (by decide) (by decide)⟩

/-- C10: for a model whose table has no server-generated field, with
return-id not requested or unsupported, the insert fix-up returns the
statement and parameters completely unchanged. -/
theorem insert_no_auto_frame (return_id can_return_id : Bool) (meta : InsertMeta)
    (sql : String) (params : List String)
    (hauto : meta.has_auto_field = false)
    (hret : return_id = false ∨ can_return_id = false) :
    SQLInsertCompiler.fix_insert return_id can_return_id meta sql params = (sql, params) := by
  have hb : (return_id && can_return_id) = false := by
    rcases hret with h | h <;> simp [h]
  simp [SQLInsertCompiler.fix_insert, hauto, hb]

/-! ### Structural lemmas for the OUTPUT-clause substitution scanner -/

theorem wordChar_facts {c : Char} (h : wordChar c = true) :
    c ≠ ')' ∧ c ≠ ']' ∧ c ≠ '.' ∧ c ≠ '*' ∧ isWsChar c = false := by
  refine ⟨?_, ?_, ?_, ?_, ?_⟩
  · rintro rfl; revert h; decide
  · rintro rfl; revert h; decide
  · rintro rfl; revert h; decide
  · rintro rfl; revert h; decide
  · revert h
    rw [wordChar, isWsChar]
    rcases Char.isAlpha c |>.eq_false_or_eq_true with ha | ha
    all_goals rcases Char.isDigit c |>.eq_false_or_eq_true with hd | hd
    all_goals intro h
    all_goals by_cases h1 : c = ' ' <;> by_cases h2 : c = '\t' <;>
      by_cases h3 : c = '\n' <;> by_cases h4 : c = '\r' <;>
      by_cases h5 : c = '\x0b' <;> by_cases h6 : c = '\x0c' <;>
      first
        | (subst_vars; revert h; decide)
        | simp [h1, h2, h3, h4, h5, h6]

theorem valuesMatch_none_of_not_bracket {c : Char} (cs : List Char)
    (h1 : c ≠ ')') (h2 : c ≠ ']') : valuesMatch c cs = none := by
  rw [valuesMatch, if_neg (by simp [h1, h2])]

theorem subGo_skip_char (col : String) (f : Nat) (c : Char) (cs : List Char)
    (h1 : c ≠ ')') (h2 : c ≠ ']') :
    valuesSubGo col (f + 1) (c :: cs) = c :: valuesSubGo col f cs := by
  rw [valuesSubGo, valuesMatch_none_of_not_bracket cs h1 h2]

theorem subGo_skip_append (col : String) (s : List Char)
    (h : ∀ c ∈ s, c ≠ ')' ∧ c ≠ ']') :
    ∀ (f : Nat) (t : List Char),
      valuesSubGo col (s.length + f) (s ++ t) = s ++ valuesSubGo col f t := by
  induction s with
  | nil => intro f t; simp
  | cons c s ih =>
    intro f t
    have hc := h c (List.mem_cons_self c s)
    have hs : ∀ x ∈ s, x ≠ ')' ∧ x ≠ ']' := fun x hx => h x (List.mem_cons_of_mem c hx)
    have harith : (c :: s).length + f = (s.length + f) + 1 := by
      simp only [List.length_cons]
      omega
    rw [List.cons_append, harith, subGo_skip_char col (s.length + f) c _ hc.1 hc.2, ih hs f t,
      List.cons_append]

theorem subGo_skip_bracket (col : String) (f : Nat) (c : Char) (cs : List Char)
    (hm : valuesMatch c cs = none) :
    valuesSubGo col (f + 1) (c :: cs) = c :: valuesSubGo col f cs := by
  rw [valuesSubGo, hm]

theorem subGo_match (col : String) (f : Nat) (c : Char) (cs : List Char)
    (d sfx : List Char) (n : Nat)
    (hm : valuesMatch c cs = some (d, sfx, n)) :
    valuesSubGo col (f + 1) (c :: cs)
      = valuesRepl col c d sfx ++ valuesSubGo col f (cs.drop n) := by
  rw [valuesSubGo, hm]

theorem ciStarts_stop : ∀ (a pat : List Char) (c : Char) (t : List Char),
    (∀ p ∈ pat, lcChar c ≠ p) →
    ciStarts pat (a ++ c :: t) = ciStarts pat (a ++ [c]) := by
  intro a
  induction a with
  | nil =>
    intro pat c t h
    cases pat with
    | nil => rfl
    | cons p ps =>
      have := h p (List.mem_cons_self p ps)
      simp [ciStarts, this]
  | cons x a ih =>
    intro pat c t h
    cases pat with
    | nil => rfl
    | cons p ps =>
      simp only [List.cons_append, ciStarts, List.append_eq]
      rw [ih ps c t (fun q hq => h q (List.mem_cons_of_mem p hq))]

theorem valuesMatch_ty_none (ty rest : List Char)
    (hws : ∀ c ∈ ty, isWsChar c = false)
    (hv : ciStarts valuesPat (ty ++ [')']) = false)
    (hd : ciStarts defaultPat (ty ++ [')']) = false) :
    valuesMatch ']' (' ' :: (ty ++ ')' :: rest)) = none := by
  have hwr : wsRun (ty ++ ')' :: rest) = 0 := by
    cases ty with
    | nil => rfl
    | cons c cs =>
      have := hws c (List.mem_cons_self c cs)
      simp [wsRun, this]
  have h1 : wsRun (' ' :: (ty ++ ')' :: rest)) = 1 := by
    simp [wsRun, isWsChar, hwr]
  have hv2 : ciStarts valuesPat (ty ++ ')' :: rest) = false := by
    rw [ciStarts_stop ty valuesPat ')' rest (by decide), hv]
  have hd2 : ciStarts defaultPat (ty ++ ')' :: rest) = false := by
    rw [ciStarts_stop ty defaultPat ')' rest (by decide), hd]
  simp [valuesMatch, h1, hv2, hd2]

/-! ### The compiled INSERT statement family -/

/-- Bracket-quoted identifier `[name]`, the quoting used by the SQL-Server
flavored `quote_name` collaborator. -/
def bq (s : String) : String := "[" ++ s ++ "]"

/-- The quoted column list `[c1], [c2], ...` of a compiled INSERT. -/
def colList : List String → String
  | [] => ""
  | [c] => bq c
  | c :: c2 :: cs => bq c ++ ", " ++ colList (c2 :: cs)

/-- The placeholder list `%s, %s, ...`. -/
def phList : Nat → String
  | 0 => ""
  | 1 => "%s"
  | n + 2 => "%s, " ++ phList (n + 1)

/-- A compiled single-row INSERT statement, the shape produced by the
upstream Django compiler. -/
def mkInsertSql (tbl : String) (cols : List String) (n : Nat) : String :=
  "INSERT INTO " ++ bq tbl ++ " (" ++ colList cols ++ ") VALUES (" ++ phList n ++ ")"

theorem phList_chars : ∀ (n : Nat), ∀ c ∈ (phList n).data, c ≠ ')' ∧ c ≠ ']'
  | 0 => by intro c hc; cases hc
  | 1 => by decide
  | n + 2 => by
    intro c hc
    rw [phList, String.data_append] at hc
    rcases List.mem_append.mp hc with h | h
    · have hall : ∀ x ∈ ("%s, ").data, x ≠ ')' ∧ x ≠ ']' := by decide
      exact hall c h
    · exact phList_chars (n + 1) c h

theorem bq_data (c : String) : (bq c).data = '[' :: (c.data ++ [']']) := by
  simp [bq, String.data_append]

theorem subGo_skip_bq (col : String) (c : String)
    (hc : ∀ x ∈ c.data, wordChar x = true) (f : Nat) (u : List Char)
    (hm : valuesMatch ']' u = none) :
    valuesSubGo col ((bq c).data.length + f) ((bq c).data ++ u)
      = (bq c).data ++ valuesSubGo col f u := by
  have hlen : (bq c).data.length = c.data.length + 2 := by
    rw [bq_data]
    simp
  have hnb : ∀ x ∈ c.data, x ≠ ')' ∧ x ≠ ']' := by
    intro x hx
    have := wordChar_facts (hc x hx)
    exact ⟨this.1, this.2.1⟩
  rw [hlen, bq_data, List.cons_append]
  have h1 : c.data.length + 2 + f = (c.data.length + (f + 1)) + 1 := by omega
  rw [h1, subGo_skip_char col _ '[' _ (by decide) (by decide)]
  rw [List.append_assoc, List.singleton_append]
  rw [subGo_skip_append col c.data hnb (f + 1) (']' :: u)]
  rw [subGo_skip_bracket col f ']' u hm]
  simp [List.append_assoc]

theorem subGo_match_bq (col : String) (c : String)
    (hc : ∀ x ∈ c.data, wordChar x = true) (f : Nat) (u : List Char)
    (d sfx : List Char) (n : Nat)
    (hm : valuesMatch ']' u = some (d, sfx, n)) :
    valuesSubGo col ((bq c).data.length + f) ((bq c).data ++ u)
      = '[' :: (c.data ++ (valuesRepl col ']' d sfx ++ valuesSubGo col f (u.drop n))) := by
  have hlen : (bq c).data.length = c.data.length + 2 := by
    rw [bq_data]
    simp
  have hnb : ∀ x ∈ c.data, x ≠ ')' ∧ x ≠ ']' := by
    intro x hx
    have := wordChar_facts (hc x hx)
    exact ⟨this.1, this.2.1⟩
  rw [hlen, bq_data, List.cons_append]
  have h1 : c.data.length + 2 + f = (c.data.length + (f + 1)) + 1 := by omega
  rw [h1, subGo_skip_char col _ '[' _ (by decide) (by decide)]
  rw [List.append_assoc, List.singleton_append]
  rw [subGo_skip_append col c.data hnb (f + 1) (']' :: u)]
  rw [subGo_match col f ']' u d sfx n hm]

theorem subGo_skip_colList (col : String) (cols : List String)
    (hid : ∀ s ∈ cols, ∀ c ∈ s.data, wordChar c = true) :
    ∀ (f : Nat) (t : List Char),
      valuesSubGo col ((colList cols).data.length + (f + 1)) ((colList cols).data ++ ')' :: t)
        = (colList cols).data ++ valuesSubGo col (f + 1) (')' :: t) := by
  induction cols using colList.induct with
  | case1 =>
    intro f t
    simp [colList]
  | case2 c =>
    intro f t
    have hm : valuesMatch ']' (')' :: t) = none := rfl
    rw [colList, subGo_skip_bq col c (hid c (by simp)) (f + 1) (')' :: t) hm]
  | case3 c c2 cs ih =>
    intro f t
    have hrest := ih (fun s hs => hid s (List.mem_cons_of_mem c hs))
    have hdata : (colList (c :: c2 :: cs)).data
        = (bq c).data ++ (", ".data ++ (colList (c2 :: cs)).data) := by
      rw [colList]
      simp [String.data_append]
    have hm : valuesMatch ']' (',' :: (' ' :: ((colList (c2 :: cs)).data ++ ')' :: t)))
        = none := rfl
    rw [hdata, List.length_append, List.length_append]
    have h1 : (bq c).data.length + (", ".data.length + (colList (c2 :: cs)).data.length)
          + (f + 1)
        = (bq c).data.length
          + (", ".data.length + ((colList (c2 :: cs)).data.length + (f + 1))) := by
      omega
    rw [List.append_assoc, h1]
    have hshape : (", ".data ++ (colList (c2 :: cs)).data) ++ ')' :: t
        = ", ".data ++ ((colList (c2 :: cs)).data ++ ')' :: t) := by
      rw [List.append_assoc]
    have hmm : valuesMatch ']' ((", ".data ++ (colList (c2 :: cs)).data) ++ ')' :: t)
        = none := by
      rw [hshape]
      exact hm
    rw [subGo_skip_bq col c (hid c (by simp)) _ _ hmm]
    rw [hshape]
    rw [subGo_skip_append col ", ".data (by decide) _ _]
    rw [hrest f t]
    simp [List.append_assoc]

theorem subGo_nil (col : String) (f : Nat) : valuesSubGo col f [] = [] := by
  cases f <;> rfl

theorem subGo_string_only (col : String) (s : List Char)
    (h : ∀ c ∈ s, c ≠ ')' ∧ c ≠ ']') (f : Nat) :
    valuesSubGo col (s.length + f) s = s := by
  have h2 := subGo_skip_append col s h f []
  simpa [subGo_nil] using h2

/-- The OUTPUT-clause substitution on the wrapped compiled INSERT statement:
the one match fires at `) VALUES (`; every other position is skipped. -/
theorem valuesSub_values_shape (pkc tyS tbl : String) (cols : List String) (n : Nat)
    (hpkc : ∀ c ∈ pkc.data, wordChar c = true)
    (htyS : ∀ c ∈ tyS.data, wordChar c = true)
    (hv : ciStarts valuesPat (tyS.data ++ [')']) = false)
    (hd : ciStarts defaultPat (tyS.data ++ [')']) = false)
    (htbl : ∀ c ∈ tbl.data, wordChar c = true)
    (hcols : ∀ s ∈ cols, ∀ c ∈ s.data, wordChar c = true) :
    valuesSub (bq pkc)
        ("SET NOCOUNT ON;DECLARE @sqlserver_ado_return_id table (" ++ bq pkc ++ " " ++ tyS
          ++ ");INSERT INTO " ++ bq tbl ++ " (" ++ colList cols ++ ") VALUES ("
          ++ phList n ++ ");SELECT * FROM @sqlserver_ado_return_id")
      = "SET NOCOUNT ON;DECLARE @sqlserver_ado_return_id table (" ++ bq pkc ++ " " ++ tyS
          ++ ");INSERT INTO " ++ bq tbl ++ " (" ++ colList cols ++ ") OUTPUT INSERTED."
          ++ bq pkc ++ " INTO @sqlserver_ado_return_id VALUES (" ++ phList n
          ++ ");SELECT * FROM @sqlserver_ado_return_id" := by
  have hws : ∀ c ∈ tyS.data, isWsChar c = false := fun c hc => (wordChar_facts (htyS c hc)).2.2.2.2
  have htyNb : ∀ c ∈ tyS.data, c ≠ ')' ∧ c ≠ ']' := fun c hc =>
    ⟨(wordChar_facts (htyS c hc)).1, (wordChar_facts (htyS c hc)).2.1⟩
  apply String.ext
  rw [valuesSub]
  have hS : ("SET NOCOUNT ON;DECLARE @sqlserver_ado_return_id table (" ++ bq pkc ++ " " ++ tyS
        ++ ");INSERT INTO " ++ bq tbl ++ " (" ++ colList cols ++ ") VALUES ("
        ++ phList n ++ ");SELECT * FROM @sqlserver_ado_return_id").data
      = "SET NOCOUNT ON;DECLARE @sqlserver_ado_return_id table (".data
        ++ ((bq pkc).data
        ++ (" ".data
        ++ (tyS.data
        ++ (");INSERT INTO ".data
        ++ ((bq tbl).data
        ++ (" (".data
        ++ ((colList cols).data
        ++ (") VALUES (".data
        ++ ((phList n).data
        ++ ");SELECT * FROM @sqlserver_ado_return_id".data))))))))) := by
    simp only [String.data_append, List.append_assoc]
  rw [hS]
  simp only [List.length_append]
  -- 1. skip the DECLARE prefix up to the opening bracket of the pk column
  rw [subGo_skip_append _ _ (by decide)]
  -- 2. the quoted pk column; its closing bracket is followed by the declared type
  have e1 : ∀ y : List Char,
      [' '] ++ (tyS.data ++ ([')', ';', 'I', 'N', 'S', 'E', 'R', 'T', ' ', 'I', 'N', 'T', 'O', ' '] ++ y))
        = ' ' :: (tyS.data ++ ')' :: ([';', 'I', 'N', 'S', 'E', 'R', 'T', ' ', 'I', 'N', 'T', 'O', ' '] ++ y)) :=
    fun y => rfl
  have hm1 : ∀ y : List Char,
      valuesMatch ']' ([' '] ++ (tyS.data
          ++ ([')', ';', 'I', 'N', 'S', 'E', 'R', 'T', ' ', 'I', 'N', 'T', 'O', ' '] ++ y))) = none := by
    intro y
    rw [e1]
    exact valuesMatch_ty_none tyS.data _ hws hv hd
  rw [subGo_skip_bq _ pkc hpkc _ _ (hm1 _)]
  -- 3. the space before the declared type
  have f1 : ∀ x : Nat, ([' '] : List Char).length + x = x + 1 := fun x => by
    simp only [List.length_cons, List.length_nil]
    omega
  rw [f1, List.singleton_append, subGo_skip_char _ _ ' ' _ (by decide) (by decide)]
  -- 4. the declared type
  rw [subGo_skip_append _ tyS.data htyNb]
  -- 5. the close paren of the DECLARE, followed by `;INSERT`
  have f2 : ∀ x : Nat,
      ([')', ';', 'I', 'N', 'S', 'E', 'R', 'T', ' ', 'I', 'N', 'T', 'O', ' '] : List Char).length + x
        = (([';', 'I', 'N', 'S', 'E', 'R', 'T', ' ', 'I', 'N', 'T', 'O', ' '] : List Char).length + x) + 1 :=
    fun x => by simp only [List.length_cons, List.length_nil]; omega
  have e2 : ∀ y : List Char,
      [')', ';', 'I', 'N', 'S', 'E', 'R', 'T', ' ', 'I', 'N', 'T', 'O', ' '] ++ y
        = ')' :: ([';', 'I', 'N', 'S', 'E', 'R', 'T', ' ', 'I', 'N', 'T', 'O', ' '] ++ y) := fun y => rfl
  have hm2 : ∀ y : List Char,
      valuesMatch ')' ([';', 'I', 'N', 'S', 'E', 'R', 'T', ' ', 'I', 'N', 'T', 'O', ' '] ++ y) = none :=
    fun y => rfl
  rw [f2, e2, subGo_skip_bracket _ _ ')' _ (hm2 _)]
  -- 6. `;INSERT INTO `
  rw [subGo_skip_append _ ([';', 'I', 'N', 'S', 'E', 'R', 'T', ' ', 'I', 'N', 'T', 'O', ' ']) (by decide)]
  -- 7. the quoted table name, followed by ` (`
  have hm3 : ∀ y : List Char, valuesMatch ']' ([' ', '('] ++ y) = none := fun y => rfl
  rw [subGo_skip_bq _ tbl htbl _ _ (hm3 _)]
  -- 8. ` (`
  have f3 : ∀ x : Nat, ([' ', '('] : List Char).length + x = (x + 1) + 1 := fun x => by
    simp only [List.length_cons, List.length_nil]
    omega
  have e3 : ∀ y : List Char, [' ', '('] ++ y = ' ' :: ('(' :: y) := fun y => rfl
  rw [f3, e3, subGo_skip_char _ _ ' ' _ (by decide) (by decide),
    subGo_skip_char _ _ '(' _ (by decide) (by decide)]
  -- 9. the column list
  have f4 : ∀ x : Nat,
      ([')', ' ', 'V', 'A', 'L', 'U', 'E', 'S', ' ', '('] : List Char).length + x
        = (([' ', 'V', 'A', 'L', 'U', 'E', 'S', ' ', '('] : List Char).length + x) + 1 :=
    fun x => by simp only [List.length_cons, List.length_nil]; omega
  have e4 : ∀ y : List Char,
      [')', ' ', 'V', 'A', 'L', 'U', 'E', 'S', ' ', '('] ++ y
        = ')' :: ([' ', 'V', 'A', 'L', 'U', 'E', 'S', ' ', '('] ++ y) := fun y => rfl
  rw [f4, e4, subGo_skip_colList _ cols hcols]
  -- 10. the one genuine match, at `) VALUES (`
  have hmE : ∀ y : List Char,
      valuesMatch ')' ([' ', 'V', 'A', 'L', 'U', 'E', 'S', ' ', '('] ++ y)
        = some ([' '], [' '], 8) := fun y => rfl
  rw [subGo_match _ _ ')' _ _ _ _ (hmE _)]
  have e5 : ∀ y : List Char,
      (([' ', 'V', 'A', 'L', 'U', 'E', 'S', ' ', '('] ++ y).drop 8) = '(' :: y := fun y => rfl
  rw [e5]
  -- 11. the opening paren of the VALUES list
  have f5 : ∀ x : Nat,
      ([' ', 'V', 'A', 'L', 'U', 'E', 'S', ' ', '('] : List Char).length + x = (8 + x) + 1 :=
    fun x => by simp only [List.length_cons, List.length_nil]; omega
  rw [f5, subGo_skip_char _ _ '(' _ (by decide) (by decide)]
  -- 12. the placeholder list
  have f6 : ∀ a b : Nat, 8 + (a + b) = a + (b + 8) := fun a b => by omega
  rw [f6, subGo_skip_append _ (phList n).data (phList_chars n)]
  -- 13. the close paren of the VALUES list, then the trailing SELECT
  have f7 : ([')', ';', 'S', 'E', 'L', 'E', 'C', 'T', ' ', '*', ' ', 'F', 'R', 'O', 'M', ' ', '@', 's',
        'q', 'l', 's', 'e', 'r', 'v', 'e', 'r', '_', 'a', 'd', 'o', '_', 'r', 'e', 't', 'u', 'r',
        'n', '_', 'i', 'd'] : List Char).length + 8
      = (([';', 'S', 'E', 'L', 'E', 'C', 'T', ' ', '*', ' ', 'F', 'R', 'O', 'M', ' ', '@', 's',
        'q', 'l', 's', 'e', 'r', 'v', 'e', 'r', '_', 'a', 'd', 'o', '_', 'r', 'e', 't', 'u', 'r',
        'n', '_', 'i', 'd'] : List Char).length + 8) + 1 := by decide
  have hm4 : valuesMatch ')' ([';', 'S', 'E', 'L', 'E', 'C', 'T', ' ', '*', ' ', 'F', 'R', 'O', 'M', ' ', '@', 's',
        'q', 'l', 's', 'e', 'r', 'v', 'e', 'r', '_', 'a', 'd', 'o', '_', 'r', 'e', 't', 'u', 'r',
        'n', '_', 'i', 'd']) = none := rfl
  rw [f7, subGo_skip_bracket _ _ ')' _ hm4]
  rw [subGo_string_only _ _ (by decide)]
  simp only [valuesRepl, String.data_append, List.append_assoc, List.cons_append,
    List.singleton_append, List.nil_append]

/-- The OUTPUT-clause substitution on the wrapped DEFAULT VALUES statement:
the one match fires at the closing bracket of the quoted table name, which is
followed by ` DEFAULT VALUES`. -/
theorem valuesSub_default_shape (pkc tyS tbl : String)
    (hpkc : ∀ c ∈ pkc.data, wordChar c = true)
    (htyS : ∀ c ∈ tyS.data, wordChar c = true)
    (hv : ciStarts valuesPat (tyS.data ++ [')']) = false)
    (hd : ciStarts defaultPat (tyS.data ++ [')']) = false)
    (htbl : ∀ c ∈ tbl.data, wordChar c = true) :
    valuesSub (bq pkc)
        ("SET NOCOUNT ON;DECLARE @sqlserver_ado_return_id table (" ++ bq pkc ++ " " ++ tyS
          ++ ");" ++ ("INSERT INTO " ++ bq tbl ++ " DEFAULT VALUES")
          ++ ";SELECT * FROM @sqlserver_ado_return_id")
      = "SET NOCOUNT ON;DECLARE @sqlserver_ado_return_id table (" ++ bq pkc ++ " " ++ tyS
          ++ ");INSERT INTO " ++ bq tbl ++ " OUTPUT INSERTED." ++ bq pkc
          ++ " INTO @sqlserver_ado_return_id DEFAULT VALUES;SELECT * FROM @sqlserver_ado_return_id" := by
  have hws : ∀ c ∈ tyS.data, isWsChar c = false := fun c hc => (wordChar_facts (htyS c hc)).2.2.2.2
  have htyNb : ∀ c ∈ tyS.data, c ≠ ')' ∧ c ≠ ']' := fun c hc =>
    ⟨(wordChar_facts (htyS c hc)).1, (wordChar_facts (htyS c hc)).2.1⟩
  have htblNb : ∀ c ∈ tbl.data, c ≠ ')' ∧ c ≠ ']' := fun c hc =>
    ⟨(wordChar_facts (htbl c hc)).1, (wordChar_facts (htbl c hc)).2.1⟩
  apply String.ext
  rw [valuesSub]
  have hS : ("SET NOCOUNT ON;DECLARE @sqlserver_ado_return_id table (" ++ bq pkc ++ " " ++ tyS
        ++ ");" ++ ("INSERT INTO " ++ bq tbl ++ " DEFAULT VALUES")
        ++ ";SELECT * FROM @sqlserver_ado_return_id").data
      = "SET NOCOUNT ON;DECLARE @sqlserver_ado_return_id table (".data
        ++ ((bq pkc).data
        ++ (" ".data
        ++ (tyS.data
        ++ (");".data
        ++ ("INSERT INTO ".data
        ++ ((bq tbl).data
        ++ (" DEFAULT VALUES".data
        ++ ";SELECT * FROM @sqlserver_ado_return_id".data))))))) := by
    simp only [String.data_append, List.append_assoc]
  rw [hS]
  simp only [List.length_append]
  -- 1. the DECLARE prefix
  rw [subGo_skip_append _ _ (by decide)]
  -- 2. the quoted pk column
  have e1 : ∀ y : List Char,
      [' '] ++ (tyS.data ++ ([')', ';'] ++ y))
        = ' ' :: (tyS.data ++ ')' :: ([';'] ++ y)) := fun y => rfl
  have hm1 : ∀ y : List Char,
      valuesMatch ']' ([' '] ++ (tyS.data ++ ([')', ';'] ++ y))) = none := by
    intro y
    rw [e1]
    exact valuesMatch_ty_none tyS.data _ hws hv hd
  rw [subGo_skip_bq _ pkc hpkc _ _ (hm1 _)]
  -- 3. the space before the declared type
  have f1 : ∀ x : Nat, ([' '] : List Char).length + x = x + 1 := fun x => by
    simp only [List.length_cons, List.length_nil]
    omega
  rw [f1, List.singleton_append, subGo_skip_char _ _ ' ' _ (by decide) (by decide)]
  -- 4. the declared type
  rw [subGo_skip_append _ tyS.data htyNb]
  -- 5. the `);` closing the DECLARE
  have f2 : ∀ x : Nat, ([')', ';'] : List Char).length + x
      = (([';'] : List Char).length + x) + 1 := fun x => by
    simp only [List.length_cons, List.length_nil]
    omega
  have e2 : ∀ y : List Char, [')', ';'] ++ y = ')' :: ([';'] ++ y) := fun y => rfl
  have hm2 : ∀ y : List Char, valuesMatch ')' ([';'] ++ y) = none := fun y => rfl
  rw [f2, e2, subGo_skip_bracket _ _ ')' _ (hm2 _)]
  -- 6. `;` and `INSERT INTO `
  rw [subGo_skip_append _ ([';']) (by decide)]
  rw [subGo_skip_append _ (['I', 'N', 'S', 'E', 'R', 'T', ' ', 'I', 'N', 'T', 'O', ' ']) (by decide)]
  -- 7. the quoted table name, whose closing bracket starts the one match
  have hmD : valuesMatch ']'
      ([' ', 'D', 'E', 'F', 'A', 'U', 'L', 'T', ' ', 'V', 'A', 'L', 'U', 'E', 'S']
        ++ [';', 'S', 'E', 'L', 'E', 'C', 'T', ' ', '*', ' ', 'F', 'R', 'O', 'M', ' ', '@', 's',
            'q', 'l', 's', 'e', 'r', 'v', 'e', 'r', '_', 'a', 'd', 'o', '_', 'r', 'e', 't', 'u', 'r',
            'n', '_', 'i', 'd'])
      = some ([' ', 'D', 'E', 'F', 'A', 'U', 'L', 'T', ' '], [], 15) := rfl
  rw [subGo_match_bq _ tbl htbl _ _ _ _ _ hmD]
  have e5 : (([' ', 'D', 'E', 'F', 'A', 'U', 'L', 'T', ' ', 'V', 'A', 'L', 'U', 'E', 'S']
        ++ [';', 'S', 'E', 'L', 'E', 'C', 'T', ' ', '*', ' ', 'F', 'R', 'O', 'M', ' ', '@', 's',
            'q', 'l', 's', 'e', 'r', 'v', 'e', 'r', '_', 'a', 'd', 'o', '_', 'r', 'e', 't', 'u', 'r',
            'n', '_', 'i', 'd']).drop 15)
      = [';', 'S', 'E', 'L', 'E', 'C', 'T', ' ', '*', ' ', 'F', 'R', 'O', 'M', ' ', '@', 's',
          'q', 'l', 's', 'e', 'r', 'v', 'e', 'r', '_', 'a', 'd', 'o', '_', 'r', 'e', 't', 'u', 'r',
          'n', '_', 'i', 'd'] := rfl
  rw [e5]
  have f5 : (([' ', 'D', 'E', 'F', 'A', 'U', 'L', 'T', ' ', 'V', 'A', 'L', 'U', 'E', 'S'] : List Char).length
        + (([';', 'S', 'E', 'L', 'E', 'C', 'T', ' ', '*', ' ', 'F', 'R', 'O', 'M', ' ', '@', 's',
            'q', 'l', 's', 'e', 'r', 'v', 'e', 'r', '_', 'a', 'd', 'o', '_', 'r', 'e', 't', 'u', 'r',
            'n', '_', 'i', 'd'] : List Char).length))
      = (([';', 'S', 'E', 'L', 'E', 'C', 'T', ' ', '*', ' ', 'F', 'R', 'O', 'M', ' ', '@', 's',
            'q', 'l', 's', 'e', 'r', 'v', 'e', 'r', '_', 'a', 'd', 'o', '_', 'r', 'e', 't', 'u', 'r',
            'n', '_', 'i', 'd'] : List Char).length) + 15 := by decide
  rw [f5, subGo_string_only _ _ (by decide)]
  simp only [valuesRepl, bq_data, String.data_append, List.append_assoc, List.cons_append,
    List.singleton_append, List.nil_append]

/-! ### C3: the return-id output injection -/

theorem count_zero_of_wordChars (s : List Char)
    (h : ∀ c ∈ s, wordChar c = true) (a : Char) (ha : wordChar a = false) :
    s.count a = 0 := by
  rw [List.count_eq_zero]
  intro hmem
  rw [h a hmem] at ha
  cases ha

theorem count_bq (x : String) (hx : ∀ c ∈ x.data, wordChar c = true) (a : Char)
    (ha : wordChar a = false) (h1 : a ≠ '[') (h2 : a ≠ ']') :
    (bq x).data.count a = 0 := by
  rw [bq_data]
  simp [List.count_cons, List.count_append, count_zero_of_wordChars x.data hx a ha, h1, h2]

theorem count_colList (cols : List String)
    (hcols : ∀ s ∈ cols, ∀ c ∈ s.data, wordChar c = true) (a : Char)
    (ha : wordChar a = false) (h1 : a ≠ '[') (h2 : a ≠ ']') (h3 : a ≠ ',') (h4 : a ≠ ' ') :
    (colList cols).data.count a = 0 := by
  induction cols using colList.induct with
  | case1 => simp [colList]
  | case2 c => 
    rw [colList]
    exact count_bq c (hcols c (by simp)) a ha h1 h2
  | case3 c c2 cs ih =>
    rw [colList]
    simp only [String.data_append, List.count_append]
    rw [count_bq c (hcols c (by simp)) a ha h1 h2,
      ih (fun s hs => hcols s (List.mem_cons_of_mem c hs))]
    simp [List.count_cons, h3, h4]

theorem phList_mem : ∀ (n : Nat), ∀ c ∈ (phList n).data,
    c = '%' ∨ c = 's' ∨ c = ',' ∨ c = ' '
  | 0 => by intro c hc; cases hc
  | 1 => by decide
  | n + 2 => by
    intro c hc
    rw [phList, String.data_append] at hc
    rcases List.mem_append.mp hc with h | h
    · have hall : ∀ x ∈ ("%s, ").data, x = '%' ∨ x = 's' ∨ x = ',' ∨ x = ' ' := by decide
      exact hall c h
    · exact phList_mem (n + 1) c h

theorem count_phList (n : Nat) (a : Char)
    (h1 : a ≠ '%') (h2 : a ≠ 's') (h3 : a ≠ ',') (h4 : a ≠ ' ') :
    (phList n).data.count a = 0 := by
  rw [List.count_eq_zero]
  intro hmem
  rcases phList_mem n a hmem with h | h | h | h
  · exact h1 h
  · exact h2 h
  · exact h3 h
  · exact h4 h

/-- The expected return-id rewriting of a compiled single-row INSERT. -/
def expectedInsertOutput (pkc tyS tbl : String) (cols : List String) (n : Nat) : String :=
  "SET NOCOUNT ON;DECLARE @sqlserver_ado_return_id table (" ++ bq pkc ++ " " ++ tyS
    ++ ");INSERT INTO " ++ bq tbl ++ " (" ++ colList cols ++ ") OUTPUT INSERTED."
    ++ bq pkc ++ " INTO @sqlserver_ado_return_id VALUES (" ++ phList n
    ++ ");SELECT * FROM @sqlserver_ado_return_id"

/-- The expected return-id rewriting of a DEFAULT VALUES INSERT. -/
def expectedDefaultOutput (pkc tyS tbl : String) : String :=
  "SET NOCOUNT ON;DECLARE @sqlserver_ado_return_id table (" ++ bq pkc ++ " " ++ tyS
    ++ ");INSERT INTO " ++ bq tbl ++ " OUTPUT INSERTED." ++ bq pkc
    ++ " INTO @sqlserver_ado_return_id DEFAULT VALUES;SELECT * FROM @sqlserver_ado_return_id"

theorem expectedInsertOutput_counts (pkc tyS tbl : String) (cols : List String) (n : Nat)
    (hpkc : ∀ c ∈ pkc.data, wordChar c = true)
    (htyS : ∀ c ∈ tyS.data, wordChar c = true)
    (htbl : ∀ c ∈ tbl.data, wordChar c = true)
    (hcols : ∀ s ∈ cols, ∀ c ∈ s.data, wordChar c = true) :
    (expectedInsertOutput pkc tyS tbl cols n).data.count '.' = 1 ∧
    (expectedInsertOutput pkc tyS tbl cols n).data.count '*' = 1 := by
  refine ⟨?_, ?_⟩
  · rw [expectedInsertOutput]
    simp only [String.data_append, List.count_append]
    rw [count_bq pkc hpkc '.' (by decide) (by decide) (by decide),
      count_bq tbl htbl '.' (by decide) (by decide) (by decide),
      count_zero_of_wordChars tyS.data htyS '.' (by decide),
      count_colList cols hcols '.' (by decide) (by decide) (by decide) (by decide) (by decide),
      count_phList n '.' (by decide) (by decide) (by decide) (by decide)]
    decide
  · rw [expectedInsertOutput]
    simp only [String.data_append, List.count_append]
    rw [count_bq pkc hpkc '*' (by decide) (by decide) (by decide),
      count_bq tbl htbl '*' (by decide) (by decide) (by decide),
      count_zero_of_wordChars tyS.data htyS '*' (by decide),
      count_colList cols hcols '*' (by decide) (by decide) (by decide) (by decide) (by decide),
      count_phList n '*' (by decide) (by decide) (by decide) (by decide)]
    decide

theorem expectedDefaultOutput_counts (pkc tyS tbl : String)
    (hpkc : ∀ c ∈ pkc.data, wordChar c = true)
    (htyS : ∀ c ∈ tyS.data, wordChar c = true)
    (htbl : ∀ c ∈ tbl.data, wordChar c = true) :
    (expectedDefaultOutput pkc tyS tbl).data.count '.' = 1 ∧
    (expectedDefaultOutput pkc tyS tbl).data.count '*' = 1 := by
  refine ⟨?_, ?_⟩
  · rw [expectedDefaultOutput]
    simp only [String.data_append, List.count_append]
    rw [count_bq pkc hpkc '.' (by decide) (by decide) (by decide),
      count_bq tbl htbl '.' (by decide) (by decide) (by decide),
      count_zero_of_wordChars tyS.data htyS '.' (by decide)]
    decide
  · rw [expectedDefaultOutput]
    simp only [String.data_append, List.count_append]
    rw [count_bq pkc hpkc '*' (by decide) (by decide) (by decide),
      count_bq tbl htbl '*' (by decide) (by decide) (by decide),
      count_zero_of_wordChars tyS.data htyS '*' (by decide)]
    decide

/-- C3: for every compiled INSERT with return-id requested and the
can-return-id feature flag true, the rewritten statement contains exactly one
`OUTPUT INSERTED.<col> INTO @sqlserver_ado_return_id` clause placed
immediately before the `VALUES` list (resp. before `DEFAULT VALUES`), is
prefixed with `SET NOCOUNT ON` and a single-column table-variable declaration
typed from the primary key's declared type truncated at the first
constraint/modifier keyword (`dataTypeSplit`), and ends with exactly one
trailing `SELECT * FROM` naming the same table variable.  The full output is
pinned by `expectedInsertOutput`/`expectedDefaultOutput`; uniqueness of the
injected clauses is expressed by the character counts of `.` (occurring only
in `OUTPUT INSERTED.`) and `*` (occurring only in `SELECT * FROM`). -/
theorem insert_return_id_output (pkc ty tbl auto : String) (cols : List String) (n : Nat)
    (params : List String)
    (hpkc : ∀ c ∈ pkc.data, wordChar c = true)
    (htyS : ∀ c ∈ (dataTypeSplit ty).data, wordChar c = true)
    (hv : ciStarts valuesPat ((dataTypeSplit ty).data ++ [')']) = false)
    (hd : ciStarts defaultPat ((dataTypeSplit ty).data ++ [')']) = false)
    (htbl : ∀ c ∈ tbl.data, wordChar c = true)
    (hcols : ∀ s ∈ cols, ∀ c ∈ s.data, wordChar c = true)
    (hne : cols ≠ [])
    (hauto : auto ∉ cols) :
    SQLInsertCompiler.fix_insert true true ⟨true, cols, auto, bq tbl, bq pkc, ty⟩
        (mkInsertSql tbl cols n) params
      = (expectedInsertOutput pkc (dataTypeSplit ty) tbl cols n, params) ∧
    SQLInsertCompiler.fix_insert true true ⟨true, [], auto, bq tbl, bq pkc, ty⟩
        (mkInsertSql tbl cols n) params
      = (expectedDefaultOutput pkc (dataTypeSplit ty) tbl, []) ∧
    (expectedInsertOutput pkc (dataTypeSplit ty) tbl cols n).data.count '.' = 1 ∧
    (expectedInsertOutput pkc (dataTypeSplit ty) tbl cols n).data.count '*' = 1 ∧
    (expectedDefaultOutput pkc (dataTypeSplit ty) tbl).data.count '.' = 1 ∧
    (expectedDefaultOutput pkc (dataTypeSplit ty) tbl).data.count '*' = 1 := by
  have hcountV := expectedInsertOutput_counts pkc (dataTypeSplit ty) tbl cols n hpkc htyS htbl hcols
  have hcountD := expectedDefaultOutput_counts pkc (dataTypeSplit ty) tbl hpkc htyS htbl
  refine ⟨?_, ?_, hcountV.1, hcountV.2, hcountD.1, hcountD.2⟩
  · have hempty : cols.isEmpty = false := by
      rw [List.isEmpty_eq_false]
      exact hne
    have hcontains : cols.contains auto = false := by
      simp [List.contains, List.elem_iff]
      exact hauto
    have hin : ("SET NOCOUNT ON;DECLARE @sqlserver_ado_return_id table (" ++ bq pkc ++ " "
          ++ dataTypeSplit ty ++ ");" ++ mkInsertSql tbl cols n
          ++ ";SELECT * FROM @sqlserver_ado_return_id")
        = ("SET NOCOUNT ON;DECLARE @sqlserver_ado_return_id table (" ++ bq pkc ++ " "
          ++ dataTypeSplit ty ++ ");INSERT INTO " ++ bq tbl ++ " (" ++ colList cols
          ++ ") VALUES (" ++ phList n ++ ");SELECT * FROM @sqlserver_ado_return_id") := by
      apply String.ext
      rw [mkInsertSql]
      simp only [String.data_append, List.append_assoc, List.cons_append, List.nil_append]
    simp only [SQLInsertCompiler.fix_insert, hempty, hcontains, Bool.false_and,
      Bool.or_self, Bool.and_self, Bool.false_or, Bool.false_eq_true, eq_self_iff_true,
      if_true, if_false]
    rw [hin, valuesSub_values_shape pkc (dataTypeSplit ty) tbl cols n hpkc htyS hv hd htbl hcols,
      expectedInsertOutput]
  · simp only [SQLInsertCompiler.fix_insert, List.isEmpty_nil, Bool.true_or,
      Bool.and_self, eq_self_iff_true, if_true]
    rw [valuesSub_default_shape pkc (dataTypeSplit ty) tbl hpkc htyS hv hd htbl,
      expectedDefaultOutput]

theorem insert_return_id_output_witness :
    (∀ c ∈ "id".data, wordChar c = true) ∧
    (∀ c ∈ (dataTypeSplit "int").data, wordChar c = true) ∧
    ciStarts valuesPat ((dataTypeSplit "int").data ++ [')']) = false ∧
    ciStarts defaultPat ((dataTypeSplit "int").data ++ [')']) = false ∧
    (∀ c ∈ "TABLE1".data, wordChar c = true) ∧
    (∀ s ∈ ["a", "b"], ∀ c ∈ s.data, wordChar c = true) ∧
    ["a", "b"] ≠ ([] : List String) ∧
    "id" ∉ ["a", "b"] ∧
    (SQLInsertCompiler.fix_insert true true ⟨true, ["a", "b"], "id", bq "TABLE1", bq "id", "int"⟩
          (mkInsertSql "TABLE1" ["a", "b"] 2) ["1", "2"]
        = (expectedInsertOutput "id" (dataTypeSplit "int") "TABLE1" ["a", "b"] 2, ["1", "2"]) ∧
      SQLInsertCompiler.fix_insert true true ⟨true, [], "id", bq "TABLE1", bq "id", "int"⟩
          (mkInsertSql "TABLE1" ["a", "b"] 2) ["1", "2"]
        = (expectedDefaultOutput "id" (dataTypeSplit "int") "TABLE1", []) ∧
      (expectedInsertOutput "id" (dataTypeSplit "int") "TABLE1" ["a", "b"] 2).data.count '.' = 1 ∧
      (expectedInsertOutput "id" (dataTypeSplit "int") "TABLE1" ["a", "b"] 2).data.count '*' = 1 ∧
      (expectedDefaultOutput "id" (dataTypeSplit "int") "TABLE1").data.count '.' = 1 ∧
      (expectedDefaultOutput "id" (dataTypeSplit "int") "TABLE1").data.count '*' = 1) :=
  ⟨by decide, by decide, by decide, by decide, by decide, by decide, by decide, by decide,
   insert_return_id_output "id" "int" "TABLE1" "id" ["a", "b"] 2 ["1", "2"]
     (by decide) (by decide) (by decide) (by decide) (by decide) (by decide) (by decide)
     (by decide)⟩


/-- Witness for C10. -/
theorem insert_no_auto_frame_witness :
    (⟨false, ["a"], "id", "[t]", "[id]", "int"⟩ : InsertMeta).has_auto_field = false ∧
    (true = false ∨ false = false) ∧
    SQLInsertCompiler.fix_insert true false
        ⟨false, ["a"], "id", "[t]", "[id]", "int"⟩ "INSERT INTO [t] ([a]) VALUES (%s)" ["7"]
      = ("INSERT INTO [t] ([a]) VALUES (%s)", ["7"]) :=
  ⟨rfl, Or.inr rfl,
   insert_no_auto_frame true false ⟨false, ["a"], "id", "[t]", "[id]", "int"⟩
     "INSERT INTO [t] ([a]) VALUES (%s)" ["7"] rfl (Or.inr rfl)⟩

/-- Witness for the amended C2. -/
theorem groupby_from_splice_all_witness :
    advancedGroupBy ("SELECT a FROM \"T\" WHERE b IN (SELECT c FROM \"U\") GROUP BY %s").data = true ∧
    ((SQLCompiler.as_sql "\"TMP_x1y2\""
        "SELECT a FROM \"T\" WHERE b IN (SELECT c FROM \"U\") GROUP BY %s" ["v"]).1
      = withSql "\"TMP_x1y2\"" ((gbDict ["v"]).map Prod.fst) ++ " "
          ++ replaceAll
              (substPlaceholders "\"TMP_x1y2\"" (gbNames ["v"])
                "SELECT a FROM \"T\" WHERE b IN (SELECT c FROM \"U\") GROUP BY %s")
              "FROM " ("FROM " ++ "\"TMP_x1y2\"" ++ ", ") ∧
     (SQLCompiler.as_sql "\"TMP_x1y2\""
        "SELECT a FROM \"T\" WHERE b IN (SELECT c FROM \"U\") GROUP BY %s" ["v"]).1
      = "WITH \"TMP_x1y2\" AS (SELECT %s AS p0) SELECT a FROM \"TMP_x1y2\", \"T\" WHERE b IN (SELECT c FROM \"TMP_x1y2\", \"U\") GROUP BY \"TMP_x1y2\".p0") :=
  ⟨by decide,
   groupby_from_splice_all "\"TMP_x1y2\""
     "SELECT a FROM \"T\" WHERE b IN (SELECT c FROM \"U\") GROUP BY %s" ["v"] (by decide)⟩

/-! ### The cursor adapter (base.py `CursorWrapper`) -/

/-- The Python values crossing the cursor-adapter boundary: unicode text,
byte strings, booleans, numbers, None, and anything else (opaque). -/
inductive PyVal where
  | text (s : String)
  | bytes (b : List Nat)
  | boolean (b : Bool)
  | num (n : Int)
  | null
  deriving DecidableEq

namespace CursorWrapper

/-- Python `sql % tuple('?' * rem)` (the count-based placeholder
substitution of `format_sql`), restricted to the `%s` and `%%` escapes that
compiled Django statements contain; any other escape is treated as a format
error.  Returns the formatted text together with the number of unconsumed
arguments; `none` models the exceptions swallowed by the bare `except`. -/
def pyFormatAux : List Char → Nat → Option (List Char × Nat)
  | [], rem => some ([], rem)
  | c :: cs, rem =>
    if c = '%' then
      match cs with
      | [] => none
      | c2 :: rest =>
        if c2 = 's' then
          if rem = 0 then none
          else (pyFormatAux rest (rem - 1)).map (fun p => ('?' :: p.1, p.2))
        else if c2 = '%' then
          (pyFormatAux rest rem).map (fun p => ('%' :: p.1, p.2))
        else none
    else (pyFormatAux cs rem).map (fun p => (c :: p.1, p.2))

/-- `sql % tuple('?' * n)`: succeeds exactly when every argument is
consumed (Python raises on both too few and too many arguments). -/
def pyFormat (s : List Char) (n : Nat) : Option (List Char) :=
  match pyFormatAux s n with
  | some (out, 0) => some out
  | _ => none

/-- `CursorWrapper.format_sql` (base.py lines 334-347): with a supplied
count, `%`-format against a tuple of `n` `'?'` strings, passing the
statement through unchanged if that raises; with no count, replace every
`%s` with `?`. -/
def format_sql (sql : String) (n_params : Option Nat) : String :=
  match n_params with
  | some n =>
    match pyFormat sql.data n with
    | some out => ⟨out⟩
    | none => sql
  | none => if containsSub sql "%s" then replaceAll sql "%s" "?" else sql

/-- The loop body of `CursorWrapper.format_params` (base.py lines 349-363):
`fp.append(...)` per parameter.  The external text codecs are abstracted:
`utf8` stands for `.encode('utf-8')` and `dec` for `.decode(self.encoding)`. -/
def format_params_go (utf8 : String → List Nat) (dec : List Nat → String)
    (fp : List PyVal) : List PyVal → List PyVal
  | [] => fp
  | p :: ps =>
    format_params_go utf8 dec
      (fp ++ [match p with
        | .text s => .bytes (utf8 s)
        | .bytes b => .bytes (utf8 (dec b))
        | .boolean b => if b then .num 1 else .num 0
        | v => v]) ps

/-- `CursorWrapper.format_params`: start from the empty accumulator. -/
def format_params (utf8 : String → List Nat) (dec : List Nat → String)
    (params : List PyVal) : List PyVal :=
  format_params_go utf8 dec [] params

/-- `CursorWrapper.execute` (base.py lines 365-389): the statement and
parameter tuple handed to the native cursor. -/
def execute (utf8 : String → List Nat) (dec : List Nat → String)
    (sql : String) (params : List PyVal) : String × List PyVal :=
  (format_sql sql (some params.length), format_params utf8 dec params)

/-- `CursorWrapper.executemany` (base.py lines 391-408): `none` models the
early `return` that skips the native batch call (empty parameter list
against a statement still holding a `?` placeholder). -/
def executemany (utf8 : String → List Nat) (dec : List Nat → String)
    (sql : String) (params_list : List (List PyVal)) :
    Option (String × List (List PyVal)) :=
  let sql2 := format_sql sql none
  if params_list.isEmpty then
    if containsSub sql2 "?" then none
    else some (sql2, params_list)
  else some (sql2, params_list.map (format_params utf8 dec))

end CursorWrapper

/-! ### Specification-side descriptions of the adapter -/

/-- The result of substituting every `%s` escape by `?` (and `%%` by `%`). -/
def phSubst : List Char → List Char
  | [] => []
  | c :: cs =>
    if c = '%' then
      match cs with
      | [] => ['%']
      | c2 :: rest =>
        if c2 = 's' then '?' :: phSubst rest
        else if c2 = '%' then '%' :: phSubst rest
        else c :: c2 :: phSubst rest
    else c :: phSubst cs

/-- The number of `%s` escapes of a format string. -/
def phCount : List Char → Nat
  | [] => 0
  | c :: cs =>
    if c = '%' then
      match cs with
      | [] => 0
      | c2 :: rest =>
        if c2 = 's' then phCount rest + 1
        else if c2 = '%' then phCount rest
        else phCount rest
    else phCount cs

/-- Well-formedness of a compiled statement as a Python format string: every
`%` begins a `%s` or `%%` escape. -/
def wellFormedFmt : List Char → Bool
  | [] => true
  | c :: cs =>
    if c = '%' then
      match cs with
      | [] => false
      | c2 :: rest =>
        if c2 = 's' then wellFormedFmt rest
        else if c2 = '%' then wellFormedFmt rest
        else false
    else wellFormedFmt cs

theorem pyFormatAux_ps (rest : List Char) (rem : Nat) :
    CursorWrapper.pyFormatAux ('%' :: 's' :: rest) rem
      = if rem = 0 then none
        else (CursorWrapper.pyFormatAux rest (rem - 1)).map (fun p => ('?' :: p.1, p.2)) := rfl

theorem pyFormatAux_pp (rest : List Char) (rem : Nat) :
    CursorWrapper.pyFormatAux ('%' :: '%' :: rest) rem
      = (CursorWrapper.pyFormatAux rest rem).map (fun p => ('%' :: p.1, p.2)) := rfl

theorem phSubst_ps (rest : List Char) : phSubst ('%' :: 's' :: rest) = '?' :: phSubst rest := rfl

theorem phSubst_pp (rest : List Char) : phSubst ('%' :: '%' :: rest) = '%' :: phSubst rest := rfl

theorem phCount_ps (rest : List Char) : phCount ('%' :: 's' :: rest) = phCount rest + 1 := rfl

theorem phCount_pp (rest : List Char) : phCount ('%' :: '%' :: rest) = phCount rest := rfl

theorem wellFormedFmt_ps (rest : List Char) :
    wellFormedFmt ('%' :: 's' :: rest) = wellFormedFmt rest := rfl

theorem wellFormedFmt_pp (rest : List Char) :
    wellFormedFmt ('%' :: '%' :: rest) = wellFormedFmt rest := rfl

theorem pyFormatAux_other (c : Char) (cs : List Char) (rem : Nat) (hc : ¬c = '%') :
    CursorWrapper.pyFormatAux (c :: cs) rem
      = (CursorWrapper.pyFormatAux cs rem).map (fun p => (c :: p.1, p.2)) := by
  cases cs with
  | nil => rw [CursorWrapper.pyFormatAux.eq_2, if_neg hc]
  | cons c2 rest => rw [CursorWrapper.pyFormatAux.eq_3, if_neg hc]

theorem phSubst_other (c : Char) (cs : List Char) (hc : ¬c = '%') :
    phSubst (c :: cs) = c :: phSubst cs := by
  cases cs with
  | nil => rw [phSubst.eq_2, if_neg hc]
  | cons c2 rest => rw [phSubst.eq_3, if_neg hc]

theorem phCount_other (c : Char) (cs : List Char) (hc : ¬c = '%') :
    phCount (c :: cs) = phCount cs := by
  cases cs with
  | nil => rw [phCount.eq_2, if_neg hc]
  | cons c2 rest => rw [phCount.eq_3, if_neg hc]

theorem wellFormedFmt_other (c : Char) (cs : List Char) (hc : ¬c = '%') :
    wellFormedFmt (c :: cs) = wellFormedFmt cs := by
  cases cs with
  | nil => rw [wellFormedFmt.eq_2, if_neg hc]
  | cons c2 rest => rw [wellFormedFmt.eq_3, if_neg hc]

theorem pyFormatAux_wf : ∀ (s : List Char), wellFormedFmt s = true →
    ∀ rem, CursorWrapper.pyFormatAux s rem
      = if phCount s ≤ rem then some (phSubst s, rem - phCount s) else none := by
  intro s
  induction s using wellFormedFmt.induct with
  | case1 =>
    intro _ rem
    simp [CursorWrapper.pyFormatAux, phCount, phSubst]
  | case2 =>
    intro h rem
    simp [wellFormedFmt] at h
  | case3 rest ih =>
    intro h rem
    rw [wellFormedFmt_ps] at h
    rw [pyFormatAux_ps, phCount_ps, phSubst_ps, ih h (rem - 1)]
    by_cases h0 : rem = 0
    · subst h0
      rw [if_pos rfl, if_neg (by omega)]
    · rw [if_neg h0]
      by_cases hle : phCount rest ≤ rem - 1
      · rw [if_pos hle, if_pos (by omega)]
        have harith : rem - 1 - phCount rest = rem - (phCount rest + 1) := by omega
        rw [harith]
        rfl
      · rw [if_neg hle, if_neg (by omega)]
        rfl
  | case4 rest h2 ih =>
    intro h rem
    rw [wellFormedFmt_pp] at h
    rw [pyFormatAux_pp, phCount_pp, phSubst_pp, ih h rem]
    by_cases hle : phCount rest ≤ rem
    · rw [if_pos hle, if_pos hle]
      rfl
    · rw [if_neg hle, if_neg hle]
      rfl
  | case5 c cs h1 h2 =>
    intro h rem
    rw [wellFormedFmt.eq_3] at h
    simp [h1, h2] at h
  | case6 c cs h1 ih =>
    intro h rem
    rw [wellFormedFmt_other c cs h1] at h
    rw [pyFormatAux_other c cs rem h1, phCount_other c cs h1, phSubst_other c cs h1, ih h rem]
    by_cases hle : phCount cs ≤ rem
    · rw [if_pos hle, if_pos hle]
      rfl
    · rw [if_neg hle, if_neg hle]
      rfl

theorem pyFormat_wf (s : List Char) (h : wellFormedFmt s = true) (n : Nat) :
    CursorWrapper.pyFormat s n = if phCount s = n then some (phSubst s) else none := by
  rw [CursorWrapper.pyFormat.eq_def, pyFormatAux_wf s h n]
  by_cases he : phCount s = n
  · rw [if_pos he, if_pos (Nat.le_of_eq he), he, Nat.sub_self]
  · rw [if_neg he]
    by_cases hle : phCount s ≤ n
    · rw [if_pos hle]
      have hk : n - phCount s ≠ 0 := by omega
      cases hkk : n - phCount s with
      | zero => exact absurd hkk hk
      | succ m => rfl
    · rw [if_neg hle]

theorem phSubst_count (s : List Char) (h : wellFormedFmt s = true) :
    (phSubst s).count '?' = s.count '?' + phCount s := by
  induction s using wellFormedFmt.induct with
  | case1 => rfl
  | case2 => simp [wellFormedFmt] at h
  | case3 rest ih =>
    rw [wellFormedFmt_ps] at h
    rw [phSubst_ps, phCount_ps]
    simp only [List.count_cons]
    rw [ih h]
    simp +decide
    omega
  | case4 rest h2 ih =>
    rw [wellFormedFmt_pp] at h
    rw [phSubst_pp, phCount_pp]
    simp only [List.count_cons]
    rw [ih h]
    simp +decide
  | case5 c cs h1 h2 =>
    rw [wellFormedFmt.eq_3] at h
    simp [h1, h2] at h
  | case6 c cs h1 ih =>
    rw [wellFormedFmt_other c cs h1] at h
    rw [phSubst_other c cs h1, phCount_other c cs h1]
    simp only [List.count_cons]
    rw [ih h]
    omega

theorem countOcc_cons (pat : List Char) (c : Char) (cs : List Char) :
    countOcc pat (c :: cs)
      = (if pat.isPrefixOf (c :: cs) then 1 else 0) + countOcc pat cs := rfl

theorem replaceAllGo_ps : ∀ (fuel : Nat) (s : List Char), s.length ≤ fuel →
    countOcc ['%', 's'] (replaceAllGo ['%', 's'] ['?'] fuel s) = 0 ∧
    ∀ t, replaceAllGo ['%', 's'] ['?'] fuel s = 's' :: t → ∃ u, s = 's' :: u := by
  intro fuel
  induction fuel with
  | zero =>
    intro s hs
    have hnil : s = [] := List.length_eq_zero.mp (Nat.le_zero.mp hs)
    subst hnil
    exact ⟨rfl, fun t ht => by cases ht⟩
  | succ f ih =>
    intro s hs
    cases s with
    | nil => exact ⟨rfl, fun t ht => by cases ht⟩
    | cons c cs =>
      rw [replaceAllGo]
      by_cases hm : (['%', 's'] : List Char).isPrefixOf (c :: cs) = true
      · rw [if_pos ⟨by decide, hm⟩]
        obtain ⟨hc, hcs⟩ : '%' = c ∧ (['s'] : List Char) <+: cs := by
          simpa [List.isPrefixOf] using hm
        obtain ⟨u, hu⟩ := hcs
        rw [List.singleton_append] at hu
        subst hu
        have hlen : u.length ≤ f := by
          simp at hs
          omega
        have ihu := ih u hlen
        have hdrop : (('s' :: u).drop ((['%', 's'] : List Char).length - 1)) = u := rfl
        rw [hdrop, List.singleton_append, countOcc_cons, ihu.1]
        refine ⟨by simp [List.isPrefixOf], ?_⟩
        intro t ht
        injection ht with h1 h2
        exact absurd h1 (by decide)
      · rw [if_neg (fun hand => hm hand.2)]
        have hlen : cs.length ≤ f := by
          simp at hs
          omega
        have ihcs := ih cs hlen
        refine ⟨?_, ?_⟩
        · rw [countOcc_cons, ihcs.1]
          have hpre : (['%', 's'] : List Char).isPrefixOf
              (c :: replaceAllGo ['%', 's'] ['?'] f cs) = false := by
            by_cases hc : c = '%'
            · subst hc
              cases hgo : replaceAllGo ['%', 's'] ['?'] f cs with
              | nil => rfl
              | cons g gs =>
                by_cases hg : g = 's'
                · subst hg
                  obtain ⟨u, hu⟩ := ihcs.2 gs hgo
                  subst hu
                  have htru : (['%', 's'] : List Char).isPrefixOf ('%' :: 's' :: u) = true := by
                    simp [List.isPrefixOf]
                  exact absurd htru hm
                · simp [List.isPrefixOf]
                  intro h1
                  exact absurd h1.symm hg
            · simp [List.isPrefixOf]
              intro h1
              exact absurd h1.symm hc
          rw [hpre]
          simp
        · intro t ht
          injection ht with h1 h2
          exact ⟨cs, by rw [h1]⟩

theorem replaceAllGo_id (pat repl : List Char) :
    ∀ (fuel : Nat) (s : List Char), countOcc pat s = 0 →
      replaceAllGo pat repl fuel s = s := by
  intro fuel
  induction fuel with
  | zero =>
    intro s _
    cases s <;> rfl
  | succ f ih =>
    intro s h
    cases s with
    | nil => rfl
    | cons c cs =>
      rw [countOcc_cons] at h
      have hpre : pat.isPrefixOf (c :: cs) = false := by
        cases hp : pat.isPrefixOf (c :: cs) with
        | false => rfl
        | true =>
          rw [hp] at h
          simp at h
      rw [replaceAllGo, if_neg (fun hand => by rw [hpre] at hand; cases hand.2)]
      rw [ih cs (by rw [hpre] at h; simpa using h)]

theorem countOcc_zero_of_not_contains (s pat : String)
    (h : containsSub s pat = false) : countOcc pat.data s.data = 0 := by
  rw [containsSub] at h
  simp at h
  omega

/-- `format_sql` with a count, on a well-formed statement whose escape count
matches: every `%s` becomes `?`. -/
theorem format_sql_count_eq (sql : String) (n : Nat)
    (hwf : wellFormedFmt sql.data = true) (he : phCount sql.data = n) :
    CursorWrapper.format_sql sql (some n) = ⟨phSubst sql.data⟩ := by
  rw [CursorWrapper.format_sql, pyFormat_wf sql.data hwf n, if_pos he]

/-- `format_sql` with a mismatching count: the format error is swallowed and
the statement passes through unchanged. -/
theorem format_sql_count_ne (sql : String) (n : Nat)
    (hwf : wellFormedFmt sql.data = true) (he : phCount sql.data ≠ n) :
    CursorWrapper.format_sql sql (some n) = sql := by
  rw [CursorWrapper.format_sql, pyFormat_wf sql.data hwf n, if_neg he]

/-- `format_sql` without a count leaves no `%s` occurrence behind. -/
theorem format_sql_none_no_ps (sql : String) :
    countOcc ['%', 's'] (CursorWrapper.format_sql sql none).data = 0 := by
  rw [CursorWrapper.format_sql]
  by_cases hc : containsSub sql "%s" = true
  · rw [if_pos hc]
    have hr : (replaceAll sql "%s" "?").data
        = replaceAllGo ['%', 's'] ['?'] sql.data.length sql.data := rfl
    rw [hr]
    exact (replaceAllGo_ps sql.data.length sql.data le_rfl).1
  · rw [if_neg hc]
    have hfalse : containsSub sql "%s" = false := by
      cases hcc : containsSub sql "%s" with
      | false => rfl
      | true => exact absurd hcc hc
    have h0 := countOcc_zero_of_not_contains sql "%s" hfalse
    simpa using h0

/-- The per-element translation of the Parameter Codec, as the spec
describes it (used to characterise the `format_params` loop). -/
def paramCodec (utf8 : String → List Nat) (dec : List Nat → String) : PyVal → PyVal
  | .text s => .bytes (utf8 s)
  | .bytes b => .bytes (utf8 (dec b))
  | .boolean b => .num (if b then 1 else 0)
  | v => v

theorem format_params_go_spec (utf8 : String → List Nat) (dec : List Nat → String) :
    ∀ (ps fp : List PyVal),
      CursorWrapper.format_params_go utf8 dec fp ps
        = fp ++ ps.map (paramCodec utf8 dec) := by
  intro ps
  induction ps with
  | nil =>
    intro fp
    simp [CursorWrapper.format_params_go]
  | cons p rest ih =>
    intro fp
    cases p <;> rw [CursorWrapper.format_params_go, ih] <;> simp [paramCodec]
    case boolean b => cases b <;> simp

/-- C6: on a statement whose escapes are `%s`/`%%`, the count-based
translation substitutes exactly `n` placeholder tokens when the statement's
escape count is `n` (the `?` count grows by exactly `n`); on a count
mismatch the format error is swallowed and the statement passes through
unrewritten; and with no count supplied, Python `str.replace` rewrites the
statement so that no `%s` occurrence remains. -/
theorem format_sql_placeholders (sql : String) (n : Nat)
    (hwf : wellFormedFmt sql.data = true) :
    (phCount sql.data = n →
      CursorWrapper.format_sql sql (some n) = ⟨phSubst sql.data⟩ ∧
      (phSubst sql.data).count '?' = sql.data.count '?' + n) ∧
    (phCount sql.data ≠ n → CursorWrapper.format_sql sql (some n) = sql) ∧
    (containsSub sql "%s" = true →
      CursorWrapper.format_sql sql none = replaceAll sql "%s" "?") ∧
    countOcc ['%', 's'] (CursorWrapper.format_sql sql none).data = 0 := by
  refine ⟨fun he => ⟨format_sql_count_eq sql n hwf he, ?_⟩,
    fun he => format_sql_count_ne sql n hwf he, fun hc => ?_, format_sql_none_no_ps sql⟩
  · rw [phSubst_count sql.data hwf, he]
  · rw [CursorWrapper.format_sql, if_pos hc]

/-- Witness for C6. -/
theorem format_sql_placeholders_witness :
    wellFormedFmt "SELECT %s, %s FROM t WHERE a = 100%%".data = true ∧
    ((phCount "SELECT %s, %s FROM t WHERE a = 100%%".data = 2 →
      CursorWrapper.format_sql "SELECT %s, %s FROM t WHERE a = 100%%" (some 2)
        = ⟨phSubst "SELECT %s, %s FROM t WHERE a = 100%%".data⟩ ∧
      (phSubst "SELECT %s, %s FROM t WHERE a = 100%%".data).count '?'
        = "SELECT %s, %s FROM t WHERE a = 100%%".data.count '?' + 2) ∧
     (phCount "SELECT %s, %s FROM t WHERE a = 100%%".data ≠ 2 →
      CursorWrapper.format_sql "SELECT %s, %s FROM t WHERE a = 100%%" (some 2)
        = "SELECT %s, %s FROM t WHERE a = 100%%") ∧
     (containsSub "SELECT %s, %s FROM t WHERE a = 100%%" "%s" = true →
      CursorWrapper.format_sql "SELECT %s, %s FROM t WHERE a = 100%%" none
        = replaceAll "SELECT %s, %s FROM t WHERE a = 100%%" "%s" "?") ∧
     countOcc ['%', 's']
       (CursorWrapper.format_sql "SELECT %s, %s FROM t WHERE a = 100%%" none).data = 0) :=
  ⟨by decide, format_sql_placeholders "SELECT %s, %s FROM t WHERE a = 100%%" 2 (by decide)⟩

/-- C7 counterexample: `executemany` does not route the statement through
the placeholder translator with count = len(params): it translates with no
count at all, replacing every `%s`; on a two-placeholder statement with a
one-element parameter row, the count-based translation would pass the
statement through unrewritten, but `executemany` hands the fully rewritten
text to the native cursor. -/
theorem cursor_routing_counterexample :
    CursorWrapper.executemany (fun _ => []) (fun _ => "") "SELECT %s, %s"
        [[PyVal.num 7]]
      = some ("SELECT ?, ?", [[PyVal.num 7]]) ∧
    CursorWrapper.format_sql "SELECT %s, %s" (some 1) = "SELECT %s, %s" ∧
    ("SELECT ?, ?" : String) ≠ "SELECT %s, %s" := by
  refine ⟨by decide, by decide, by decide⟩

/-- C7 (amended): `execute` routes the statement through the placeholder
translator with count = len(params) and the parameters through the codec;
`executemany` routes the statement through the translator with NO count
(every `%s` is replaced, regardless of the row width) and each parameter
row through the codec. -/
theorem cursor_routing (utf8 : String → List Nat) (dec : List Nat → String)
    (sql : String) (params : List PyVal) (params_list : List (List PyVal))
    (hwf : wellFormedFmt sql.data = true)
    (hn : phCount sql.data = params.length)
    (hne : params_list ≠ []) :
    CursorWrapper.execute utf8 dec sql params
      = (⟨phSubst sql.data⟩, params.map (paramCodec utf8 dec)) ∧
    CursorWrapper.executemany utf8 dec sql params_list
      = some (CursorWrapper.format_sql sql none,
          params_list.map (fun r => r.map (paramCodec utf8 dec))) ∧
    countOcc ['%', 's'] (CursorWrapper.format_sql sql none).data = 0 := by
  refine ⟨?_, ?_, format_sql_none_no_ps sql⟩
  · rw [CursorWrapper.execute, format_sql_count_eq sql params.length hwf hn,
      CursorWrapper.format_params, format_params_go_spec utf8 dec params []]
    rfl
  · rw [CursorWrapper.executemany]
    rw [if_neg (by simp [List.isEmpty_eq_false, hne])]
    have hmap : params_list.map (CursorWrapper.format_params utf8 dec)
        = params_list.map (fun r => r.map (paramCodec utf8 dec)) := by
      apply List.map_congr_left
      intro r _
      rw [CursorWrapper.format_params, format_params_go_spec utf8 dec r []]
      rfl
    rw [hmap]

/-- Witness for the amended C7. -/
theorem cursor_routing_witness :
    wellFormedFmt "INSERT INTO t VALUES (%s, %s)".data = true ∧
    phCount "INSERT INTO t VALUES (%s, %s)".data
      = [PyVal.text "a", PyVal.boolean true].length ∧
    ([[PyVal.boolean false]] : List (List PyVal)) ≠ [] ∧
    (CursorWrapper.execute (fun s => s.data.map Char.toNat) (fun _ => "")
        "INSERT INTO t VALUES (%s, %s)" [PyVal.text "a", PyVal.boolean true]
      = (⟨phSubst "INSERT INTO t VALUES (%s, %s)".data⟩,
         [PyVal.text "a", PyVal.boolean true].map
           (paramCodec (fun s => s.data.map Char.toNat) (fun _ => ""))) ∧
     CursorWrapper.executemany (fun s => s.data.map Char.toNat) (fun _ => "")
        "INSERT INTO t VALUES (%s, %s)" [[PyVal.boolean false]]
      = some (CursorWrapper.format_sql "INSERT INTO t VALUES (%s, %s)" none,
          [[PyVal.boolean false]].map
            (fun r => r.map (paramCodec (fun s => s.data.map Char.toNat) (fun _ => "")))) ∧
     countOcc ['%', 's']
       (CursorWrapper.format_sql "INSERT INTO t VALUES (%s, %s)" none).data = 0) :=
  ⟨by decide, by decide, by decide,
   cursor_routing (fun s => s.data.map Char.toNat) (fun _ => "")
     "INSERT INTO t VALUES (%s, %s)" [PyVal.text "a", PyVal.boolean true]
     [[PyVal.boolean false]] (by decide) (by decide) (by decide)⟩

/-- C8: the outbound codec is exactly the elementwise `paramCodec`: it
returns a new sequence of the same length in which, position by position,
text is encoded to bytes, byte values are transcoded through the configured
decoder, booleans become the integers 1/0, and every other value passes
through unchanged. -/
theorem format_params_codec (utf8 : String → List Nat) (dec : List Nat → String)
    (params : List PyVal) :
    CursorWrapper.format_params utf8 dec params
      = params.map (paramCodec utf8 dec) ∧
    (CursorWrapper.format_params utf8 dec params).length = params.length ∧
    ∀ i : Nat, (CursorWrapper.format_params utf8 dec params)[i]?
      = (params[i]?).map (paramCodec utf8 dec) := by
  have h : CursorWrapper.format_params utf8 dec params
      = params.map (paramCodec utf8 dec) := by
    rw [CursorWrapper.format_params, format_params_go_spec utf8 dec params []]
    rfl
  refine ⟨h, ?_, ?_⟩
  · rw [h, List.length_map]
  · intro i
    rw [h, List.getElem?_map]

/-- C9: `executemany` with an empty parameter list, on a statement whose
translation still contains the driver placeholder `?`, returns without
invoking the native batch call. -/
theorem executemany_empty_noop (utf8 : String → List Nat) (dec : List Nat → String)
    (sql : String)
    (h : containsSub (CursorWrapper.format_sql sql none) "?" = true) :
    CursorWrapper.executemany utf8 dec sql [] = none := by
  rw [CursorWrapper.executemany]
  simp [h]

/-- Witness for C9. -/
theorem executemany_empty_noop_witness :
    containsSub (CursorWrapper.format_sql "SELECT %s" none) "?" = true ∧
    CursorWrapper.executemany (fun _ => []) (fun _ => "") "SELECT %s" [] = none :=
  ⟨by decide,
   executemany_empty_noop (fun _ => []) (fun _ => "") "SELECT %s" (by decide)⟩

end DjangoPyodbc
